import Mathlib

/-!
Verification development for the guardrails policy engine
(`src/backend/src/guardrails/{rules,engine,models}.py`).

The Python code is shallowly embedded: Python values flowing through the
rule evaluator are modelled by the inductive type `Value`; stateful engine
code is modelled by explicit state passing; code that can raise is modelled
with `Except`.  Machine-level aspects that the claims do not touch are
modelled as documented on the individual definitions (wall-clock time,
IEEE-754 float representation, Python's builtin attribute namespace and
regular-expression engine).
-/

/-! ### Character-level helpers (Python `str` primitives) -/

/-- Python whitespace (`\s`, `str.strip`), ASCII subset.  Unicode whitespace
beyond ASCII is not modelled; no rule text in the repository uses it. -/
def isPySpace (c : Char) : Bool :=
  c = ' ' || c = '\t' || c = '\n' || c = '\r' || c = '\x0b' || c = '\x0c'

/-- Python `\w` word character, ASCII subset. -/
def isWordChar (c : Char) : Bool :=
  ('a' ≤ c && c ≤ 'z') || ('A' ≤ c && c ≤ 'Z') || ('0' ≤ c && c ≤ '9') || c = '_'

/-- Python `str.strip()` on a character list: drop leading and trailing
whitespace. -/
def stripChars (cs : List Char) : List Char :=
  ((cs.dropWhile isPySpace).reverse.dropWhile isPySpace).reverse

/-- Python `str.lower()` (ASCII). -/
def lowerChars (cs : List Char) : List Char :=
  cs.map Char.toLower

/-- Python `str.split(sep)` for a single-character separator: split on every
occurrence, keeping empty pieces. -/
def splitChar (c : Char) : List Char → List (List Char)
  | [] => [[]]
  | x :: xs =>
    if x = c then [] :: splitChar c xs
    else
      match splitChar c xs with
      | [] => [[x]]
      | p :: ps => (x :: p) :: ps

theorem splitChar_ne_nil (c : Char) (l : List Char) : splitChar c l ≠ [] := by
  cases l with
  | nil => simp [splitChar]
  | cons x xs =>
    by_cases hxc : x = c
    · simp [splitChar, hxc]
    · cases h : splitChar c xs with
      | nil => simp [splitChar, hxc, h]
      | cons p ps => simp [splitChar, hxc, h]

theorem length_mem_splitChar {c : Char} {l : List Char} {p : List Char}
    (hp : p ∈ splitChar c l) : p.length ≤ l.length := by
  induction l generalizing p with
  | nil =>
    simp only [splitChar, List.mem_singleton] at hp
    simp [hp]
  | cons x xs ih =>
    by_cases hxc : x = c
    · simp only [splitChar, if_pos hxc, List.mem_cons] at hp
      rcases hp with h | h
      · simp [h]
      · exact Nat.le_succ_of_le (ih h)
    · cases h : splitChar c xs with
      | nil => exact absurd h (splitChar_ne_nil c xs)
      | cons q qs =>
        simp only [splitChar, if_neg hxc, h, List.mem_cons] at hp
        have hqmem : q ∈ splitChar c xs := by rw [h]; exact List.mem_cons_self _ _
        rcases hp with h1 | h2
        · subst h1
          simpa using Nat.succ_le_succ (ih hqmem)
        · have : p ∈ splitChar c xs := by
            rw [h]; exact List.mem_cons_of_mem _ h2
          exact Nat.le_succ_of_le (ih this)

theorem length_dropWhileP_le (p : Char → Bool) (l : List Char) :
    (l.dropWhile p).length ≤ l.length :=
  List.Sublist.length_le (List.IsSuffix.sublist (List.dropWhile_suffix p))

theorem length_stripChars_le (cs : List Char) : (stripChars cs).length ≤ cs.length := by
  unfold stripChars
  calc ((cs.dropWhile isPySpace).reverse.dropWhile isPySpace).reverse.length
      = ((cs.dropWhile isPySpace).reverse.dropWhile isPySpace).length := by
        simp
    _ ≤ (cs.dropWhile isPySpace).reverse.length := length_dropWhileP_le _ _
    _ = (cs.dropWhile isPySpace).length := by simp
    _ ≤ cs.length := length_dropWhileP_le _ _

/-- Python `int(token)`: an optional sign followed by one or more ASCII
digits.  The underscore digit-group separator accepted by CPython is not
modelled; no rule text in the repository uses it. -/
def parsePyInt (cs : List Char) : Option Int :=
  match cs with
  | '+' :: rest =>
    if rest ≠ [] ∧ rest.all Char.isDigit then some (digitsVal rest) else none
  | '-' :: rest =>
    if rest ≠ [] ∧ rest.all Char.isDigit then some (-(digitsVal rest)) else none
  | _ =>
    if cs ≠ [] ∧ cs.all Char.isDigit then some (digitsVal cs) else none
where
  digitsVal (ds : List Char) : Int :=
    (ds.foldl (fun a c => a * 10 + (c.toNat - '0'.toNat)) 0 : Nat)

/-- Digit-list value as a natural number. -/
def digitsNat (ds : List Char) : Nat :=
  ds.foldl (fun a c => a * 10 + (c.toNat - '0'.toNat)) 0

/-- Exponent suffix of a Python float literal (`e`/`E`, optional sign,
digits); empty input means exponent 0. -/
def parseExpVal : List Char → Option Int
  | [] => some 0
  | c :: rest =>
    if c = 'e' ∨ c = 'E' then
      match rest with
      | '+' :: ds =>
        if ds ≠ [] ∧ ds.all Char.isDigit then some (digitsNat ds) else none
      | '-' :: ds =>
        if ds ≠ [] ∧ ds.all Char.isDigit then some (-(digitsNat ds : Int)) else none
      | ds =>
        if ds ≠ [] ∧ ds.all Char.isDigit then some (digitsNat ds) else none
    else none

/-- Exact rational value of `integer-part . fraction-part × 10^e`. -/
def floatOfParts (ip fp : List Char) (e : Int) : Rat :=
  let num : Nat := digitsNat ip * 10 ^ fp.length + digitsNat fp
  if 0 ≤ e then mkRat (num * 10 ^ e.toNat) (10 ^ fp.length)
  else mkRat num (10 ^ fp.length * 10 ^ (-e).toNat)

/-- Unsigned part of a Python float literal: `digits [. digits] [exp]` or
`. digits [exp]`. -/
def parseUnsignedFloat (cs : List Char) : Option Rat :=
  let ip := cs.takeWhile Char.isDigit
  let r1 := cs.dropWhile Char.isDigit
  match r1 with
  | '.' :: r2 =>
    let fp := r2.takeWhile Char.isDigit
    let r3 := r2.dropWhile Char.isDigit
    if ip.isEmpty && fp.isEmpty then none
    else (parseExpVal r3).map (floatOfParts ip fp)
  | _ => if ip.isEmpty then none else (parseExpVal r1).map (floatOfParts ip [])

/-- Python `float(token)` for finite decimal literals.  The value is modelled
exactly as a rational; rounding to IEEE-754 double, underscore separators and
the `inf`/`nan` spellings are not modelled (no claim depends on them, and the
caller only reaches this parser for tokens containing a decimal point). -/
def parsePyFloat : List Char → Option Rat
  | '+' :: rest => parseUnsignedFloat rest
  | '-' :: rest => (parseUnsignedFloat rest).map Neg.neg
  | cs => parseUnsignedFloat cs

/-! ### The Python value model -/

/-- Python values that flow through the guardrails engine.  `none` models
Python `None` (which is also the "absent" result of path resolution);
`dict` and `obj` are association lists of string keys to values, modelling
dictionaries and attributed objects (such as `GuardrailContext`)
respectively.  Builtin method attributes of scalar values (for example
`(5).real`) and object identity are outside the model; no claim depends
on them. -/
inductive Value where
  | none : Value
  | bool : Bool → Value
  | int : Int → Value
  | float : Rat → Value
  | str : String → Value
  | list : List Value → Value
  | dict : List (String × Value) → Value
  | obj : List (String × Value) → Value

/-- First-match association-list lookup, modelling `dict.get` /
`getattr` on the modelled attribute set. -/
def lookupKey (es : List (String × Value)) (k : String) : Option Value :=
  match es with
  | [] => Option.none
  | (k', v) :: rest => if k' = k then some v else lookupKey rest k

/-- Whether a value is Python `None` (`v is None`). -/
def Value.isNone : Value → Bool
  | .none => true
  | _ => false

/-- The numeric view Python uses for `==` and ordering: `bool` counts as
0/1, `int` and `float` as rationals. -/
def numOf : Value → Option Rat
  | .bool b => some (if b then 1 else 0)
  | .int n => some (n : Rat)
  | .float q => some q
  | _ => Option.none

mutual
/-- Python `==` on the modelled values: numeric kinds compare by value
(`True == 1`, `1 == 1.0`), strings and `None` by themselves, lists
elementwise, dicts key-by-key ignoring order; values of different
non-numeric kinds are unequal.  Two `obj` values compare by identity in
Python; distinct objects are modelled as unequal. -/
def pyEq : Value → Value → Bool
  | a, b =>
    match numOf a, numOf b with
    | some x, some y => x = y
    | _, _ =>
      match a, b with
      | .none, .none => true
      | .str s, .str t => s = t
      | .list xs, .list ys => pyEqList xs ys
      | .dict xs, .dict ys => xs.length = ys.length && pyEqDict xs ys
      | _, _ => false

/-- Elementwise Python `==` on lists. -/
def pyEqList : List Value → List Value → Bool
  | [], [] => true
  | x :: xs, y :: ys => pyEq x y && pyEqList xs ys
  | _, _ => false

/-- Each key of the first dict resolves in the second to an equal value. -/
def pyEqDict : List (String × Value) → List (String × Value) → Bool
  | [], _ => true
  | (k, v) :: rest, ys =>
    (match lookupKey ys k with
     | some w => pyEq v w
     | Option.none => false) && pyEqDict rest ys
end

/-- Errors raised while evaluating a rule, mirroring the Python exception
kinds the engine distinguishes: `RuleParseError`, `TypeError` (caught and
re-wrapped at the rule-function call site) and `AttributeError` (which,
like any other exception, reaches the engine's generic handler). -/
inductive EvalErr where
  | parseError : String → EvalErr
  | typeError : String → EvalErr
  | attributeError : String → EvalErr

/-- Three-way comparison on rationals. -/
def ratCompare (a b : Rat) : Ordering :=
  if a < b then .lt else if b < a then .gt else .eq

/-- Lexicographic three-way comparison on char lists by code point. -/
def charsCompare : List Char → List Char → Ordering
  | [], [] => .eq
  | [], _ :: _ => .lt
  | _ :: _, [] => .gt
  | x :: xs, y :: ys =>
    if x.val < y.val then .lt
    else if y.val < x.val then .gt
    else charsCompare xs ys

mutual
/-- Python's rich comparison on the modelled values: numbers compare by
value (bools as 0/1), strings lexicographically by code point, lists
lexicographically after stepping over `==`-equal prefixes; any other pair
of kinds raises `TypeError`. -/
def pyCmp : Value → Value → Except EvalErr Ordering
  | a, b =>
    match numOf a, numOf b with
    | some x, some y => .ok (ratCompare x y)
    | _, _ =>
      match a, b with
      | .str s, .str t => .ok (charsCompare s.toList t.toList)
      | .list xs, .list ys => pyCmpList xs ys
      | _, _ => .error (.typeError "unsupported comparison between instances")

/-- Python list comparison: find the first index whose elements are not
`==`-equal and compare there; otherwise the shorter list is smaller. -/
def pyCmpList : List Value → List Value → Except EvalErr Ordering
  | [], [] => .ok .eq
  | [], _ :: _ => .ok .lt
  | _ :: _, [] => .ok .gt
  | x :: xs, y :: ys =>
    if pyEq x y then pyCmpList xs ys else pyCmp x y
end

/-- Python `a > b`. -/
def pyGt (a b : Value) : Except EvalErr Bool :=
  (pyCmp a b).map (fun o => o = Ordering.gt)

/-- Python `a < b`. -/
def pyLt (a b : Value) : Except EvalErr Bool :=
  (pyCmp a b).map (fun o => o = Ordering.lt)

/-- Python `a >= b`. -/
def pyGe (a b : Value) : Except EvalErr Bool :=
  (pyCmp a b).map (fun o => o ≠ Ordering.lt)

/-- Python `a <= b`. -/
def pyLe (a b : Value) : Except EvalErr Bool :=
  (pyCmp a b).map (fun o => o ≠ Ordering.gt)

/-- Containment of one char list in another (Python substring test). -/
def listContainsSub (needle hay : List Char) : Bool :=
  match hay with
  | [] => needle.isEmpty
  | _ :: rest => needle.isPrefixOf hay || listContainsSub needle rest

/-- Python `left in right`: substring test for strings, `==`-based element
search for lists, key search for dicts; any other right operand raises
`TypeError`. -/
def pyIn (left rightv : Value) : Except EvalErr Bool :=
  match rightv with
  | .str s =>
    match left with
    | .str t => .ok (listContainsSub t.toList s.toList)
    | _ => .error (.typeError "in <string> requires string as left operand")
  | .list xs => .ok (xs.any (fun x => pyEq x left))
  | .dict es => .ok (es.any (fun kv => pyEq (.str kv.1) left))
  | _ => .error (.typeError "argument is not iterable")

/-! ### Python `str()` conversion -/

/-- Render a rational for `str()` of a float value.  CPython prints the
shortest decimal that round-trips through the IEEE-754 double; that
formatting is not reproduced here (integral values are shown with a
trailing `.0`, others as a fraction).  No claim evaluates `str()` on a
float. -/
def floatText (q : Rat) : String :=
  if q.den = 1 then toString q.num ++ ".0"
  else toString q.num ++ "/" ++ toString q.den

/-- Comma-space separated join, as in Python container reprs. -/
def joinCommaSep (parts : List String) : String :=
  String.intercalate ", " parts

mutual
/-- Python `str(value)`.  Strings are returned as-is; `None`, booleans and
integers use their Python spellings; containers use their `repr`-based
rendering.  `obj` values print as a fixed placeholder (CPython would show
a dataclass repr; no claim evaluates `str()` on an object). -/
def pyStr : Value → String
  | .none => "None"
  | .bool true => "True"
  | .bool false => "False"
  | .int n => toString n
  | .float q => floatText q
  | .str s => s
  | .list xs => "[" ++ joinCommaSep (pyReprList xs) ++ "]"
  | .dict es => "\x7b" ++ joinCommaSep (pyReprDict es) ++ "\x7d"
  | .obj _ => "<object>"

/-- Python `repr(value)`, as used for elements inside container renderings:
like `str` but strings are quoted.  Escape sequences inside the quotes are
not reproduced. -/
def pyRepr : Value → String
  | .str s => "'" ++ s ++ "'"
  | .none => "None"
  | .bool true => "True"
  | .bool false => "False"
  | .int n => toString n
  | .float q => floatText q
  | .list xs => "[" ++ joinCommaSep (pyReprList xs) ++ "]"
  | .dict es => "\x7b" ++ joinCommaSep (pyReprDict es) ++ "\x7d"
  | .obj _ => "<object>"

/-- `repr` of each element of a list. -/
def pyReprList : List Value → List String
  | [] => []
  | x :: xs => pyRepr x :: pyReprList xs

/-- `'key': repr(value)` for each dict entry. -/
def pyReprDict : List (String × Value) → List String
  | [] => []
  | (k, v) :: rest => ("'" ++ k ++ "': " ++ pyRepr v) :: pyReprDict rest
end

/-- Python `str.strip()` on a `String`. -/
def pyStrip (s : String) : String :=
  String.mk (stripChars s.toList)

/-! ### `rules._parse_literal` -/

/-- The token spells Python `None` (`none`/`null`, case-insensitive). -/
def isNoneTok (t : List Char) : Bool :=
  lowerChars t = "none".toList || lowerChars t = "null".toList

/-- The token spells `true` (case-insensitive). -/
def isTrueTok (t : List Char) : Bool := lowerChars t = "true".toList

/-- The token spells `false` (case-insensitive). -/
def isFalseTok (t : List Char) : Bool := lowerChars t = "false".toList

/-- The token starts and ends with the same quote character
(`token.startswith("'") and token.endswith("'")`, or likewise for `"`). -/
def isQuotedTok (t : List Char) : Bool :=
  (t.head? = some '\'' && t.getLast? = some '\'') ||
  (t.head? = some '"' && t.getLast? = some '"')

/-- The token is bracketed `[...]`. -/
def isBracketTok (t : List Char) : Bool :=
  t.head? = some '[' && t.getLast? = some ']'

/-- The number attempt of `_parse_literal`: `float(token)` is tried when
the token contains a decimal point, `int(token)` otherwise; `none` models
the `ValueError` that lets parsing fall through. -/
def numAttempt (t : List Char) : Option Value :=
  if t.contains '.' then (parsePyFloat t).map Value.float
  else (parsePyInt t).map Value.int

/-- `_parse_literal` body on the token's characters.  The `fuel` argument
only bounds the recursion into bracketed list items (each item is strictly
shorter than the token, so any fuel above the token length is enough; see
`parseLitChars_fuel_irrelevant`). -/
def parseLitChars : Nat → List Char → Value
  | 0, _ => Value.none
  | fuel + 1, cs =>
    let t := stripChars cs
    if isNoneTok t then Value.none
    else if isTrueTok t then .bool true
    else if isFalseTok t then .bool false
    else
      match numAttempt t with
      | some v => v
      | Option.none =>
        if isQuotedTok t then .str (String.mk ((t.drop 1).dropLast))
        else if isBracketTok t then
          let inner := stripChars ((t.drop 1).dropLast)
          if inner.isEmpty then .list []
          else .list ((splitChar ',' inner).map (fun p => parseLitChars fuel (stripChars p)))
        else .dict [("__path__", .str (String.mk t))]

/-- `rules._parse_literal(token)`: parse a literal value (string, number,
list, bool, None) or produce a path-reference marker. -/
def parse_literal (token : String) : Value :=
  parseLitChars (token.toList.length + 1) token.toList

theorem isBracketTok_two_le {t : List Char} (h : isBracketTok t = true) :
    2 ≤ t.length := by
  match t with
  | [] => simp [isBracketTok] at h
  | [a] =>
    exfalso
    simp [isBracketTok, List.getLast?] at h
    obtain ⟨h1, h2⟩ := h
    subst h1
    exact absurd h2 (by decide)
  | a :: b :: rest =>
    simp only [List.length]
    omega

theorem parseLitChars_fuel_irrelevant :
    ∀ (f g : Nat) (cs : List Char), cs.length < f → cs.length < g →
      parseLitChars f cs = parseLitChars g cs := by
  intro f
  induction f with
  | zero => intro g cs h; omega
  | succ f' ih =>
    intro g cs hf hg
    cases g with
    | zero => omega
    | succ g' =>
      simp only [parseLitChars]
      split
      · rfl
      · split
        · rfl
        · split
          · rfl
          · split
            · rfl
            · split
              · rfl
              · split
                · split
                  · rfl
                  · apply congrArg
                    apply List.map_congr_left
                    intro p hp
                    have hbr : isBracketTok (stripChars cs) = true := by assumption
                    have h2 : 2 ≤ (stripChars cs).length := isBracketTok_two_le hbr
                    have hsc : (stripChars cs).length ≤ cs.length := length_stripChars_le cs
                    have hp1 : p.length ≤ (stripChars (((stripChars cs).drop 1).dropLast)).length :=
                      length_mem_splitChar hp
                    have hp2 : (stripChars (((stripChars cs).drop 1).dropLast)).length ≤
                        (((stripChars cs).drop 1).dropLast).length := length_stripChars_le _
                    have hp3 : (((stripChars cs).drop 1).dropLast).length =
                        (stripChars cs).length - 1 - 1 := by
                      simp [List.length_dropLast, List.length_drop]
                    have hsp : (stripChars p).length ≤ p.length := length_stripChars_le p
                    apply ih
                    · omega
                    · omega
                · rfl

/-! ### `rules._get_nested_value`, `rules._resolve_value` -/

/-- Python `path.split(".")`. -/
def pySplitDot (s : String) : List String :=
  (splitChar '.' s.toList).map String.mk

/-- One pass of `_get_nested_value`'s loop over the remaining path
segments: a dict segment is looked up with `.get` (a missing key
continues with `None`); an attributed object follows the attribute when
present (`hasattr`/`getattr`) and otherwise resolves to `None`; any other
current value ends the walk with `None`.  Sequences have no branch here:
the Python code never indexes into a list. -/
def nestedGo : Value → List String → Value
  | cur, [] => cur
  | cur, p :: ps =>
    match cur with
    | .dict es => nestedGo ((lookupKey es p).getD Value.none) ps
    | .obj attrs =>
      match lookupKey attrs p with
      | some v => nestedGo v ps
      | Option.none => Value.none
    | _ => Value.none

/-- `rules._get_nested_value(obj, path)`: get a nested value using dot
notation. -/
def get_nested_value (obj : Value) (path : String) : Value :=
  nestedGo obj (pySplitDot path)

/-- `rules._resolve_value(token, context)`: a dict carrying a `__path__`
key is resolved against the context; anything else is already a value.
(The literal parser only ever stores a string under `__path__`; a
non-string there cannot arise and is returned unchanged.) -/
def resolveValue (token : Value) (ctx : Value) : Value :=
  match token with
  | .dict es =>
    match lookupKey es "__path__" with
    | some (.str p) => get_nested_value ctx p
    | some _ => token
    | Option.none => token
  | _ => token

/-! ### `rules._tokenize_args` -/

/-- Character loop of `_tokenize_args`: `current` is accumulated in
reverse, `depth` counts unclosed `[`, `inStr` holds the active quote
character. -/
def tokenizeGo : List Char → List Char → List String → Int → Option Char → List String
  | [], current, acc, _, _ =>
    let c := stripChars current.reverse
    if c.isEmpty then acc.reverse else acc.reverse ++ [String.mk c]
  | ch :: rest, current, acc, depth, inStr =>
    match inStr with
    | some q =>
      if ch = q then tokenizeGo rest (ch :: current) acc depth Option.none
      else tokenizeGo rest (ch :: current) acc depth (some q)
    | Option.none =>
      if ch = '"' ∨ ch = '\'' then tokenizeGo rest (ch :: current) acc depth (some ch)
      else if ch = '[' then tokenizeGo rest (ch :: current) acc (depth + 1) Option.none
      else if ch = ']' then tokenizeGo rest (ch :: current) acc (depth - 1) Option.none
      else if ch = ',' ∧ depth = 0 then
        tokenizeGo rest [] (String.mk (stripChars current.reverse) :: acc) 0 Option.none
      else tokenizeGo rest (ch :: current) acc depth Option.none

/-- `rules._tokenize_args(args_str)`: split an argument list on commas,
respecting bracket nesting and quotes. -/
def tokenize_args (s : String) : List String :=
  tokenizeGo s.toList [] [] 0 Option.none

/-! ### JSON recognizer (for the `valid_json` rule) -/

/-- JSON whitespace accepted by `json.loads`. -/
def isJsonWs (c : Char) : Bool :=
  c = ' ' || c = '\t' || c = '\n' || c = '\r'

/-- Remainder of a JSON string after its opening quote; `none` when the
text is not a valid JSON string. -/
def jsonStringRest : List Char → Option (List Char)
  | [] => Option.none
  | '"' :: rest => some rest
  | '\\' :: e :: rest =>
    if e = '"' ∨ e = '\\' ∨ e = '/' ∨ e = 'b' ∨ e = 'f' ∨ e = 'n' ∨ e = 'r' ∨ e = 't' then
      jsonStringRest rest
    else if e = 'u' then
      match rest with
      | h1 :: h2 :: h3 :: h4 :: rest2 =>
        if [h1, h2, h3, h4].all (fun c => c.isDigit || ('a' ≤ c && c ≤ 'f') || ('A' ≤ c && c ≤ 'F')) then
          jsonStringRest rest2
        else Option.none
      | _ => Option.none
    else Option.none
  | c :: rest => if c.val < 32 then Option.none else jsonStringRest rest

/-- Remainder after the integer digits of a JSON number: optional fraction
and exponent. -/
def jsonAfterInt (cs : List Char) : Option (List Char) :=
  let afterFrac :=
    match cs with
    | '.' :: r =>
      let ds := r.takeWhile Char.isDigit
      if ds.isEmpty then Option.none else some (r.dropWhile Char.isDigit)
    | _ => some cs
  match afterFrac with
  | Option.none => Option.none
  | some cs2 =>
    match cs2 with
    | 'e' :: r | 'E' :: r =>
      let r2 := match r with | '+' :: r' => r' | '-' :: r' => r' | _ => r
      let ds := r2.takeWhile Char.isDigit
      if ds.isEmpty then Option.none else some (r2.dropWhile Char.isDigit)
    | _ => some cs2

/-- Remainder of a JSON number; `none` when no number starts here. -/
def jsonNumberRest (cs : List Char) : Option (List Char) :=
  let cs1 := match cs with | '-' :: r => r | _ => cs
  match cs1 with
  | '0' :: r => jsonAfterInt r
  | c :: r =>
    if c.isDigit then jsonAfterInt (r.dropWhile Char.isDigit) else Option.none
  | [] => Option.none

mutual
/-- Consume one JSON value, returning the remaining text.  `fuel` bounds
nesting depth (any fuel above the text length is enough). -/
def jsonValRest : Nat → List Char → Option (List Char)
  | 0, _ => Option.none
  | fuel + 1, cs =>
    match cs.dropWhile isJsonWs with
    | 't' :: 'r' :: 'u' :: 'e' :: r => some r
    | 'f' :: 'a' :: 'l' :: 's' :: 'e' :: r => some r
    | 'n' :: 'u' :: 'l' :: 'l' :: r => some r
    | '"' :: r => jsonStringRest r
    | '[' :: r =>
      match (r.dropWhile isJsonWs) with
      | ']' :: r2 => some r2
      | r1 => jsonArrayItems fuel r1
    | '\x7b' :: r =>
      match (r.dropWhile isJsonWs) with
      | '\x7d' :: r2 => some r2
      | r1 => jsonObjItems fuel r1
    | cs2 => jsonNumberRest cs2

/-- Comma-separated JSON values up to a closing `]`. -/
def jsonArrayItems : Nat → List Char → Option (List Char)
  | 0, _ => Option.none
  | fuel + 1, cs =>
    match jsonValRest fuel cs with
    | Option.none => Option.none
    | some rest =>
      match rest.dropWhile isJsonWs with
      | ']' :: r2 => some r2
      | ',' :: r2 => jsonArrayItems fuel r2
      | _ => Option.none

/-- Comma-separated `"key": value` pairs up to a closing brace. -/
def jsonObjItems : Nat → List Char → Option (List Char)
  | 0, _ => Option.none
  | fuel + 1, cs =>
    match cs.dropWhile isJsonWs with
    | '"' :: r =>
      match jsonStringRest r with
      | Option.none => Option.none
      | some afterKey =>
        match afterKey.dropWhile isJsonWs with
        | ':' :: r2 =>
          match jsonValRest fuel r2 with
          | Option.none => Option.none
          | some rest =>
            match rest.dropWhile isJsonWs with
            | '\x7d' :: r3 => some r3
            | ',' :: r3 => jsonObjItems fuel r3
            | _ => Option.none
        | _ => Option.none
    | _ => Option.none
end

/-- Whether `json.loads(s)` succeeds.  `NaN`/`Infinity` extensions are not
modelled; no claim evaluates `valid_json`. -/
def jsonParsable (s : String) : Bool :=
  match jsonValRest (s.toList.length + 1) s.toList with
  | some rest => (rest.dropWhile isJsonWs).isEmpty
  | Option.none => false

/-! ### The rule registry (`rules._rules` and the builtin predicates) -/

/-- Shared truthiness-style body of `rules.required`. -/
def requiredB : Value → Bool
  | .none => false
  | .str s => !(pyStrip s).isEmpty
  | .list xs => !xs.isEmpty
  | .dict es => !es.isEmpty
  | _ => true

/-- `rules.max_length(value, limit)`: `None` passes; otherwise
`len(str(value)) <= limit`. -/
def max_length : List Value → Except EvalErr Bool
  | [value, limit] =>
    if value.isNone then .ok true
    else pyLe (.int ((pyStr value).length : Int)) limit
  | _ => .error (.typeError "max_length() received a wrong number of arguments")

/-- `rules.min_length(value, limit)`: `None` fails; otherwise
`len(str(value).strip()) >= limit`. -/
def min_length : List Value → Except EvalErr Bool
  | [value, limit] =>
    if value.isNone then .ok false
    else pyGe (.int ((pyStrip (pyStr value)).length : Int)) limit
  | _ => .error (.typeError "min_length() received a wrong number of arguments")

/-- `rules.required(value)`: value exists and is not empty. -/
def required : List Value → Except EvalErr Bool
  | [value] => .ok (requiredB value)
  | _ => .error (.typeError "required() received a wrong number of arguments")

/-- `rules.valid_json(value)`. -/
def valid_json : List Value → Except EvalErr Bool
  | [value] =>
    match value with
    | .none => .ok false
    | .dict _ => .ok true
    | .list _ => .ok true
    | .str s => .ok (jsonParsable s)
    | _ => .ok false
  | _ => .error (.typeError "valid_json() received a wrong number of arguments")

/-- `rules.valid_enum(value, allowed)`: `value in allowed`. -/
def valid_enum : List Value → Except EvalErr Bool
  | [value, allowed] => pyIn value allowed
  | _ => .error (.typeError "valid_enum() received a wrong number of arguments")

/-- Python `float(value)` conversion used by `in_range`; `none` models the
`ValueError`/`TypeError` that the rule catches. -/
def pyToFloat : Value → Option Rat
  | .bool b => some (if b then 1 else 0)
  | .int n => some (n : Rat)
  | .float q => some q
  | .str s => parsePyFloat (stripChars s.toList)
  | _ => Option.none

/-- `rules.in_range(value, min_val, max_val)`: numeric range check,
inclusive; conversion or comparison failures yield `False`. -/
def in_range : List Value → Except EvalErr Bool
  | [value, minV, maxV] =>
    if value.isNone then .ok false
    else
      match pyToFloat value with
      | Option.none => .ok false
      | some q =>
        match pyLe minV (.float q) with
        | .error _ => .ok false
        | .ok false => .ok false
        | .ok true =>
          match pyLe (.float q) maxV with
          | .error _ => .ok false
          | .ok b => .ok b
  | _ => .error (.typeError "in_range() received a wrong number of arguments")

/-- `rules.required_fields(obj, fields)`: all listed fields present and
non-empty.  A non-dict `obj` fails before `fields` is touched; iterating a
non-iterable `fields` raises `TypeError`. -/
def required_fields : List Value → Except EvalErr Bool
  | [objv, fields] =>
    match objv with
    | .dict es =>
      match fields with
      | .list fs =>
        .ok (fs.all (fun f =>
          requiredB (match f with
                     | .str s => (lookupKey es s).getD Value.none
                     | _ => Value.none)))
      | .str s =>
        .ok (s.toList.all (fun c => requiredB ((lookupKey es (String.mk [c])).getD Value.none)))
      | .dict fs =>
        .ok (fs.all (fun kv => requiredB ((lookupKey es kv.1).getD Value.none)))
      | _ => .error (.typeError "argument of type is not iterable")
    | _ => .ok false
  | _ => .error (.typeError "required_fields() received a wrong number of arguments")

/-- Regex metacharacters of Python `re`. -/
def isRegexMeta (c : Char) : Bool :=
  c = '.' || c = '^' || c = '$' || c = '*' || c = '+' || c = '?' || c = '\\' ||
  c = '[' || c = ']' || c = '|' || c = '(' || c = ')' || c = '\x7b' || c = '\x7d'

/-- Python `re.match(pattern, s)` is outside the embedding; it is modelled
for metacharacter-free patterns only, where matching at the start of the
string is a literal prefix test.  Patterns containing metacharacters
evaluate to `false` in this model; no claim depends on them. -/
def reMatch (p s : String) : Bool :=
  if p.toList.any isRegexMeta then false
  else p.toList.isPrefixOf s.toList

/-- `rules.matches_pattern(value, pattern)`. -/
def matches_pattern : List Value → Except EvalErr Bool
  | [value, pattern] =>
    if value.isNone then .ok false
    else
      match pattern with
      | .str p => .ok (reMatch p (pyStr value))
      | _ => .error (.typeError "first argument must be string or compiled pattern")
  | _ => .error (.typeError "matches_pattern() received a wrong number of arguments")

/-- Attribute read on a context argument (`getattr`); non-objects and
missing attributes raise `AttributeError` as in Python. -/
def getCtxAttr (ctxv : Value) (attr : String) : Except EvalErr Value :=
  match ctxv with
  | .obj attrs =>
    match lookupKey attrs attr with
    | some v => .ok v
    | Option.none => .error (.attributeError ("object has no attribute " ++ attr))
  | _ => .error (.attributeError ("object has no attribute " ++ attr))

/-- `rules.max_tool_calls(context, limit)`: `context.tool_call_count <= limit`. -/
def max_tool_calls : List Value → Except EvalErr Bool
  | [ctxv, limit] =>
    match getCtxAttr ctxv "tool_call_count" with
    | .ok v => pyLe v limit
    | .error e => .error e
  | _ => .error (.typeError "max_tool_calls() received a wrong number of arguments")

/-- `rules.max_iterations(context, limit)`: `context.iteration_count <= limit`. -/
def max_iterations : List Value → Except EvalErr Bool
  | [ctxv, limit] =>
    match getCtxAttr ctxv "iteration_count" with
    | .ok v => pyLe v limit
    | .error e => .error e
  | _ => .error (.typeError "max_iterations() received a wrong number of arguments")

/-- `all(tool in allowed for tool in tools)`, stopping at the first
failure as Python's `all` does. -/
def allToolsIn : List Value → Value → Except EvalErr Bool
  | [], _ => .ok true
  | t :: rest, allowed =>
    match pyIn t allowed with
    | .ok true => allToolsIn rest allowed
    | .ok false => .ok false
    | .error e => .error e

/-- `rules.allowed_tools(context, allowed)`: vacuously true with no
recorded tool calls; otherwise every recorded tool must be in `allowed`.
(`tool_calls` on a context object is always a list; other shapes cannot
arise.) -/
def allowed_tools : List Value → Except EvalErr Bool
  | [ctxv, allowed] =>
    match getCtxAttr ctxv "tool_calls" with
    | .ok (.list ts) =>
      if ts.isEmpty then .ok true
      else allToolsIn ts allowed
    | .ok _ => .error (.typeError "unexpected tool_calls value")
    | .error e => .error e
  | _ => .error (.typeError "allowed_tools() received a wrong number of arguments")

/-- `rules.timeout(context, limit_ms)`: `context.elapsed_ms() <= limit_ms`.
The wall-clock read `elapsed_ms()` is modelled as a stored `elapsed_ms`
attribute of the context object; no claim depends on real time. -/
def timeout : List Value → Except EvalErr Bool
  | [ctxv, limit] =>
    match getCtxAttr ctxv "elapsed_ms" with
    | .ok v => pyLe v limit
    | .error e => .error e
  | _ => .error (.typeError "timeout() received a wrong number of arguments")

/-- `rules.get_rule(name)`: the registry `_rules`, populated with the
builtin predicates in registration order. -/
def getRule (name : String) : Option (List Value → Except EvalErr Bool) :=
  if name = "max_length" then some max_length
  else if name = "min_length" then some min_length
  else if name = "required" then some required
  else if name = "valid_json" then some valid_json
  else if name = "valid_enum" then some valid_enum
  else if name = "in_range" then some in_range
  else if name = "required_fields" then some required_fields
  else if name = "matches_pattern" then some matches_pattern
  else if name = "max_tool_calls" then some max_tool_calls
  else if name = "max_iterations" then some max_iterations
  else if name = "allowed_tools" then some allowed_tools
  else if name = "timeout" then some timeout
  else Option.none

/-! ### `rules.evaluate_rule` -/

/-- The function-call pattern of `evaluate_rule`
(`^(\w+)\s*\(\s*(.*)\s*\)$`, DOTALL): a maximal word-character name, then
optional whitespace, an opening parenthesis, and a final closing
parenthesis; the argument text is everything between (leading whitespace
dropped by the greedy `\s*`). -/
def matchFuncCall (s : String) : Option (String × String) :=
  let cs := s.toList
  let nm := cs.takeWhile isWordChar
  if nm.isEmpty then Option.none
  else
    match (cs.dropWhile isWordChar).dropWhile isPySpace with
    | '(' :: after =>
      match after.getLast? with
      | some ')' => some (String.mk nm, String.mk (after.dropLast.dropWhile isPySpace))
      | _ => Option.none
    | _ => Option.none

/-- Match a two-character symbol operator at the head. -/
def matchSym2 (a b : Char) : List Char → Option (List Char)
  | x :: y :: rest => if x = a ∧ y = b then some rest else Option.none
  | _ => Option.none

/-- Match a one-character symbol operator at the head. -/
def matchSym1 (a : Char) : List Char → Option (List Char)
  | x :: rest => if x = a then some rest else Option.none
  | _ => Option.none

/-- Word boundary after an operator keyword: end of text or a non-word
character. -/
def boundaryAfter : List Char → Bool
  | [] => true
  | c :: _ => !isWordChar c

/-- Match `\bin\b` (case-insensitive) at the head, `prev` being the
character just before the head. -/
def matchInOp (cs : List Char) (prev : Char) : Option (String × List Char) :=
  match cs with
  | x :: y :: rest =>
    if !isWordChar prev ∧ x.toLower = 'i' ∧ y.toLower = 'n' ∧ boundaryAfter rest then
      some (String.mk [x, y], rest)
    else Option.none
  | _ => Option.none

/-- Match `\bnot\s+in\b` (case-insensitive) at the head. -/
def matchNotInOp (cs : List Char) (prev : Char) : Option (String × List Char) :=
  match cs with
  | x :: y :: z :: rest =>
    if !isWordChar prev ∧ x.toLower = 'n' ∧ y.toLower = 'o' ∧ z.toLower = 't' then
      let ws := rest.takeWhile isPySpace
      let rest2 := rest.dropWhile isPySpace
      if ws.isEmpty then Option.none
      else
        match rest2 with
        | i :: n :: rest3 =>
          if i.toLower = 'i' ∧ n.toLower = 'n' ∧ boundaryAfter rest3 then
            some (String.mk ([x, y, z] ++ ws ++ [i, n]), rest3)
          else Option.none
        | _ => Option.none
    else Option.none
  | _ => Option.none

/-- All operator alternatives that match at this exact position, in the
alternation order of the pattern
`(==|!=|>=|<=|>|<|\bin\b|\bnot\s+in\b)`. -/
def opCandidatesAt (cs : List Char) (prev : Char) : List (String × List Char) :=
  (match matchSym2 '=' '=' cs with | some r => [("==", r)] | Option.none => []) ++
  (match matchSym2 '!' '=' cs with | some r => [("!=", r)] | Option.none => []) ++
  (match matchSym2 '>' '=' cs with | some r => [(">=", r)] | Option.none => []) ++
  (match matchSym2 '<' '=' cs with | some r => [("<=", r)] | Option.none => []) ++
  (match matchSym1 '>' cs with | some r => [(">", r)] | Option.none => []) ++
  (match matchSym1 '<' cs with | some r => [("<", r)] | Option.none => []) ++
  (match matchInOp cs prev with | some p => [p] | Option.none => []) ++
  (match matchNotInOp cs prev with | some p => [p] | Option.none => [])

/-- Try to complete the comparison pattern with the left side fixed to the
first `L` characters: skip whitespace (operators all start with a
non-whitespace character, so the greedy `\s*` position is forced), try the
operator alternatives in order, and require a non-empty right side.  The
`.` of the pattern does not match newlines, hence the `'\n'` exclusions. -/
def tryOpsAt (cs : List Char) (L : Nat) : Option (List Char × String × List Char) :=
  let left := cs.take L
  if left.contains '\n' then Option.none
  else
    match left.getLast? with
    | Option.none => Option.none
    | some lastLeft =>
      let rest := cs.drop L
      let ws := rest.takeWhile isPySpace
      let atOp := rest.dropWhile isPySpace
      let prev := (ws.getLast?).getD lastLeft
      (opCandidatesAt atOp prev).findSome? (fun c =>
        let rightv := c.2.dropWhile isPySpace
        if rightv.isEmpty || rightv.contains '\n' then Option.none
        else some (left, c.1, rightv))

/-- The comparison pattern of `evaluate_rule`
(`^(.+?)\s*(==|!=|>=|<=|>|<|\bin\b|\bnot\s+in\b)\s*(.+)$`, IGNORECASE):
the lazy left group grows from length 1 until the rest of the pattern
matches. -/
def matchComparisonSplit (s : String) : Option (List Char × String × List Char) :=
  let cs := s.toList
  (List.range cs.length).findSome? (fun i =>
    if i = 0 then Option.none else tryOpsAt cs i)

/-- `group(2).strip().lower().replace(" ", "_")`. -/
def opNormalize (t : String) : String :=
  String.mk ((lowerChars (stripChars t.toList)).map (fun c => if c = ' ' then '_' else c))

/-- `rules._evaluate_comparison(left, operator, right, context)`. -/
def evaluateComparison (left op rightS : String) (ctx : Value) : Except EvalErr Bool :=
  let lv := resolveValue (parse_literal left) ctx
  let rv := resolveValue (parse_literal rightS) ctx
  if op = "==" then .ok (pyEq lv rv)
  else if op = "!=" then .ok (!pyEq lv rv)
  else if op = ">" ∨ op = "<" ∨ op = ">=" ∨ op = "<=" then
    if lv.isNone || rv.isNone then .ok false
    else if op = ">" then pyGt lv rv
    else if op = "<" then pyLt lv rv
    else if op = ">=" then pyGe lv rv
    else pyLe lv rv
  else if op = "in" then
    if rv.isNone then .ok false else pyIn lv rv
  else if op = "not_in" then
    if rv.isNone then .ok true else (pyIn lv rv).map (fun b => !b)
  else .error (.parseError ("Unknown operator: " ++ op))

/-- `rules._evaluate_function(func_name, args_str, context)`: look the name
up in the registry (unknown names are a parse error), tokenize and resolve
the arguments, call the predicate; a `TypeError` from the call is
re-raised as a parse error. -/
def evaluateFunction (funcName argsStr : String) (ctx : Value) : Except EvalErr Bool :=
  match getRule funcName with
  | Option.none => .error (.parseError ("Unknown rule function: " ++ funcName))
  | some fn =>
    let args := (tokenize_args argsStr).map (fun t => resolveValue (parse_literal t) ctx)
    match fn args with
    | .ok b => .ok b
    | .error (.typeError m) => .error (.parseError ("Error calling " ++ funcName ++ ": " ++ m))
    | .error e => .error e

/-- `rules.evaluate_rule(rule, context)`: strip, try the function-call
grammar first, then the comparison grammar, otherwise fail with a parse
error naming the rule text. -/
def evaluate_rule (rule : String) (ctx : Value) : Except EvalErr Bool :=
  let r := pyStrip rule
  match matchFuncCall r with
  | some p => evaluateFunction p.1 p.2 ctx
  | Option.none =>
    match matchComparisonSplit r with
    | some t =>
      evaluateComparison (pyStrip (String.mk t.1)) (opNormalize t.2.1)
        (pyStrip (String.mk t.2.2)) ctx
    | Option.none => .error (.parseError ("Cannot parse rule: " ++ r))

/-! ### Data models (`models.py`) -/

/-- `models.GuardrailConfig`.  Field values (`stage`, `threat`, `response`)
are kept as strings exactly as in the dataclass; the loader's
`__post_init__` validation restricts them to the documented enumerations at
configuration-load time (the loader itself is an external collaborator). -/
structure GuardrailConfig where
  name : String
  stage : String
  threat : String
  detection : String := "deterministic"
  rule : String
  response : String
  enabled : Bool := true
  error_message : Option String := Option.none
  fallback_value : Value := Value.none
  truncate_to : Option Int := Option.none
  suffix : String := "..."

/-- `models.GuardrailResult`. -/
structure GuardrailResult where
  name : String
  stage : String
  threat : String
  triggered : Bool
  response : Option String := Option.none
  message : Option String := Option.none
  details : List (String × Value) := []

/-- `models.GuardrailBlockError` (the data it carries). -/
structure GuardrailBlockError where
  guardrail_name : String
  stage : String
  message : String
  details : List (String × Value)

/-- `models.GuardrailSummary`. -/
structure GuardrailSummary where
  input : List GuardrailResult := []
  behavioral : List GuardrailResult := []
  output : List GuardrailResult := []
  blocked : Bool := false
  stage_blocked : Option String := Option.none

/-- `GuardrailSummary.add_result`. -/
def addResult (s : GuardrailSummary) (r : GuardrailResult) : GuardrailSummary :=
  let s1 :=
    if r.stage = "input" then { s with input := s.input ++ [r] }
    else if r.stage = "behavioral" then { s with behavioral := s.behavioral ++ [r] }
    else if r.stage = "output" then { s with output := s.output ++ [r] }
    else s
  if r.triggered = true ∧ r.response = some "block" then
    { s1 with blocked := true, stage_blocked := some r.stage }
  else s1

/-- `models.GuardrailContext`: per-request mutable execution state,
modelled by explicit state passing.  `start_time` is a wall-clock stamp
taken at creation; real time is outside the embedding, so it is carried
as an abstract integer. -/
structure GuardrailContext where
  agent : String
  request : Value
  output : Value := Value.none
  tool_call_count : Int := 0
  iteration_count : Int := 0
  start_time : Int := 0
  tool_calls : List String := []
  results : List GuardrailResult := []

/-- `GuardrailContext.record_tool_call`: increment the count and append
the name. -/
def record_tool_call (c : GuardrailContext) (toolName : String) : GuardrailContext :=
  { c with
    tool_call_count := c.tool_call_count + 1,
    tool_calls := c.tool_calls ++ [toolName] }

/-- `GuardrailContext.increment_iteration`. -/
def increment_iteration (c : GuardrailContext) : GuardrailContext :=
  { c with iteration_count := c.iteration_count + 1 }

/-- `GuardrailEngine.create_context(agent, request)`: a fresh context with
zero counters and empty history. -/
def create_context (agent : String) (request : Value) : GuardrailContext :=
  { agent := agent, request := request }

/-- The mutations the context exposes (its only two mutators). -/
inductive CtxOp where
  | recordToolCall : String → CtxOp
  | incrementIteration : CtxOp

/-- Apply one context mutation. -/
def applyCtxOp (c : GuardrailContext) : CtxOp → GuardrailContext
  | .recordToolCall n => record_tool_call c n
  | .incrementIteration => increment_iteration c

/-! ### The engine (`engine.py`) -/

/-- Python `a or b` for an optional message: `None` and the empty string
are falsy. -/
def orDefault (m : Option String) (d : String) : String :=
  match m with
  | some s => if s.isEmpty then d else s
  | Option.none => d

/-- The engine's per-guardrail error message: `RuleParseError` is reported
as a rule parse error, any other exception as an evaluation error. -/
def errText : EvalErr → String
  | .parseError m => "Rule parse error: " ++ m
  | .typeError m => "Evaluation error: " ++ m
  | .attributeError m => "Evaluation error: " ++ m

/-- `GuardrailEngine._evaluate_guardrail`: evaluate the rule; on success
build the result (response and message only when triggered); on error,
fail open into a non-triggering result carrying the error text, or
re-raise.  (Logging has no observable effect and is omitted.) -/
def evaluateGuardrail (g : GuardrailConfig) (ctx : Value) (failOpen : Bool) :
    Except EvalErr GuardrailResult :=
  match evaluate_rule g.rule ctx with
  | .ok passed =>
    let trig := !passed
    .ok { name := g.name, stage := g.stage, threat := g.threat, triggered := trig,
          response := if trig then some g.response else Option.none,
          message := if trig then g.error_message else Option.none }
  | .error e =>
    if failOpen then
      .ok { name := g.name, stage := g.stage, threat := g.threat, triggered := false,
            message := some (errText e) }
    else .error e

/-- Association-list lookup for configuration maps. -/
def assocLookup {α : Type} : List (String × α) → String → Option α
  | [], _ => Option.none
  | (k', v) :: rest, k => if k' = k then some v else assocLookup rest k

/-- The engine's parsed configuration: agent name → stage name → ordered
guardrail list. -/
def EngineConfig : Type := List (String × List (String × List GuardrailConfig))

/-- `GuardrailEngine._get_guardrails`: the agent's own stage list when the
agent is configured (missing stage means empty), else the `"default"`
agent's list, else empty. -/
def getGuardrails (config : EngineConfig) (agent stage : String) :
    List GuardrailConfig :=
  match assocLookup config agent with
  | some stages => (assocLookup stages stage).getD []
  | Option.none =>
    match assocLookup config "default" with
    | some stages => (assocLookup stages stage).getD []
    | Option.none => []

/-- A stage aborts either by a guardrail block (`GuardrailBlockError`) or
by a propagating evaluation error (fail-open off). -/
inductive CheckErr where
  | blocked : GuardrailBlockError → CheckErr
  | evalError : EvalErr → CheckErr

/-- Loop body of `GuardrailEngine.check_input`: skip disabled guardrails,
evaluate each against `{"request": request}`, record every produced result
in the summary, and abort with a block error on the first triggered
guardrail whose response is `block` (its result is recorded, the local
results list is discarded, and no later guardrail is evaluated). -/
def checkInputGo (request : Value) (failOpen : Bool) :
    List GuardrailConfig → List GuardrailResult → GuardrailSummary →
    (Except CheckErr (List GuardrailResult)) × GuardrailSummary
  | [], acc, summ => (.ok acc, summ)
  | g :: gs, acc, summ =>
    if g.enabled = false then checkInputGo request failOpen gs acc summ
    else
      match evaluateGuardrail g (Value.dict [("request", request)]) failOpen with
      | .error e => (.error (.evalError e), summ)
      | .ok r =>
        let summ2 := addResult summ r
        if r.triggered = true ∧ r.response = some "block" then
          (.error (.blocked
            { guardrail_name := g.name, stage := "input",
              message := orDefault g.error_message ("Blocked by guardrail: " ++ g.name),
              details := r.details }), summ2)
        else checkInputGo request failOpen gs (acc ++ [r]) summ2

/-- `GuardrailEngine.check_input(agent, request)`.  The summary the engine
mutates is passed and returned explicitly. -/
def check_input (config : EngineConfig) (agent : String) (request : Value)
    (failOpen : Bool) (summ : GuardrailSummary) :
    (Except CheckErr (List GuardrailResult)) × GuardrailSummary :=
  checkInputGo request failOpen (getGuardrails config agent "input") [] summ

/-- `GuardrailEngine._extract_field_from_rule` scan: the first position
where the literal prefix occurs followed by at least one `[\w.]` character;
the captured field is the maximal such run (`re.search` with pattern
`prefix([\w.]+)`). -/
def extractGo (pfxChars : List Char) : List Char → Option String
  | [] => Option.none
  | c :: rest =>
    if pfxChars.isPrefixOf (c :: rest) then
      let run := ((c :: rest).drop pfxChars.length).takeWhile
        (fun ch => isWordChar ch || ch = '.')
      if run.isEmpty then extractGo pfxChars rest
      else some (String.mk run)
    else extractGo pfxChars rest

/-- `GuardrailEngine._extract_field_from_rule(rule, prefix)`. -/
def extract_field_from_rule (rule pfxS : String) : Option String :=
  extractGo pfxS.toList rule.toList

/-- `GuardrailEngine._get_nested` loop: dict key lookup only (a missing
key continues with `None`; a non-dict ends the walk with `None`). -/
def engineGetNestedGo : Value → List String → Value
  | cur, [] => cur
  | cur, p :: ps =>
    match cur with
    | .dict es => engineGetNestedGo ((lookupKey es p).getD Value.none) ps
    | _ => Value.none

/-- `GuardrailEngine._get_nested(obj, path)`. -/
def engine_get_nested (obj : Value) (path : String) : Value :=
  engineGetNestedGo obj (pySplitDot path)

/-- Python `dict[key] = value` on the association-list model: replace the
first binding of the key, or append a new one. -/
def setKey : List (String × Value) → String → Value → List (String × Value)
  | [], k, v => [(k, v)]
  | (k', w) :: rest, k, v =>
    if k' = k then (k, v) :: rest else (k', w) :: setKey rest k v

/-- `GuardrailEngine._set_nested` as a functional update: walk the path,
creating empty dicts for missing intermediate keys; reaching a non-dict
raises `TypeError` in Python, modelled as `none`. -/
def engineSetNestedGo : Value → List String → Value → Option Value
  | cur, [p], v =>
    match cur with
    | .dict es => some (.dict (setKey es p v))
    | _ => Option.none
  | cur, p :: ps, v =>
    match cur with
    | .dict es =>
      match engineSetNestedGo ((lookupKey es p).getD (.dict [])) ps v with
      | some child2 => some (.dict (setKey es p child2))
      | Option.none => Option.none
    | _ => Option.none
  | _, [], _ => Option.none

/-- Python `s[:n]` for a possibly negative `n`. -/
def pySliceTo (s : String) (n : Int) : String :=
  if 0 ≤ n then String.mk (s.toList.take n.toNat)
  else String.mk (s.toList.take (s.toList.length - (-n).toNat))

mutual
/-- `copy.deepcopy` on the value model: a structurally fresh clone. -/
def deepcopy : Value → Value
  | .none => .none
  | .bool b => .bool b
  | .int n => .int n
  | .float q => .float q
  | .str s => .str s
  | .list xs => .list (deepcopyList xs)
  | .dict es => .dict (deepcopyPairs es)
  | .obj es => .obj (deepcopyPairs es)

/-- `deepcopy` of each element. -/
def deepcopyList : List Value → List Value
  | [] => []
  | x :: xs => deepcopy x :: deepcopyList xs

/-- `deepcopy` of each binding. -/
def deepcopyPairs : List (String × Value) → List (String × Value)
  | [] => []
  | (k, v) :: rest => (k, deepcopy v) :: deepcopyPairs rest
end

mutual
theorem deepcopy_eq : (v : Value) → deepcopy v = v
  | .none => rfl
  | .bool _ => rfl
  | .int _ => rfl
  | .float _ => rfl
  | .str _ => rfl
  | .list xs => by rw [deepcopy, deepcopyList_eq xs]
  | .dict es => by rw [deepcopy, deepcopyPairs_eq es]
  | .obj es => by rw [deepcopy, deepcopyPairs_eq es]

theorem deepcopyList_eq : (xs : List Value) → deepcopyList xs = xs
  | [] => rfl
  | x :: xs => by rw [deepcopyList, deepcopy_eq x, deepcopyList_eq xs]

theorem deepcopyPairs_eq : (es : List (String × Value)) → deepcopyPairs es = es
  | [] => rfl
  | (k, v) :: rest => by rw [deepcopyPairs, deepcopy_eq v, deepcopyPairs_eq rest]
end

/-- `GuardrailEngine._apply_truncate(output, guardrail, result)`: nothing
without a configured length; with an `output.`-prefixed field path and a
dict output, truncate the addressed value when it is a string (recording
`original_length` and `truncated_to` on the result); otherwise truncate
the output root when it is a string; otherwise leave the output alone.
The Python code mutates `result.details` in place on the shared result
object; the updated result is returned here instead. -/
def applyTruncate (output : Value) (g : GuardrailConfig) (r : GuardrailResult) :
    Except EvalErr (Value × GuardrailResult) :=
  match g.truncate_to with
  | Option.none => .ok (output, r)
  | some n =>
    match extract_field_from_rule g.rule "output.", output with
    | some fieldPath, .dict _ =>
      match engine_get_nested output fieldPath with
      | .str s =>
        match engineSetNestedGo output (pySplitDot fieldPath)
            (.str (pySliceTo s n ++ g.suffix)) with
        | some out2 =>
          let d2 := setKey (setKey r.details "original_length" (.int s.length)) "truncated_to" (.int n)
          .ok (out2, { r with details := d2 })
        | Option.none => .error (.typeError "does not support item assignment")
      | _ => .ok (output, r)
    | _, .str s =>
      let d2 := setKey (setKey r.details "original_length" (.int s.length)) "truncated_to" (.int n)
      .ok (.str (pySliceTo s n ++ g.suffix), { r with details := d2 })
    | _, _ => .ok (output, r)

/-- `GuardrailEngine._apply_fallback(output, guardrail, result)`: with an
`output.`-prefixed field path and a dict output, overwrite the addressed
value with the configured fallback (recording the original and new value);
in every other case replace the output root itself with the fallback
value. -/
def applyFallback (output : Value) (g : GuardrailConfig) (r : GuardrailResult) :
    Except EvalErr (Value × GuardrailResult) :=
  match extract_field_from_rule g.rule "output.", output with
  | some fieldPath, .dict _ =>
    let d2 := setKey (setKey r.details "original_value" (engine_get_nested output fieldPath)) "fallback_value" g.fallback_value
    let r2 := { r with details := d2 }
    match engineSetNestedGo output (pySplitDot fieldPath) g.fallback_value with
    | some out2 => .ok (out2, r2)
    | Option.none => .error (.typeError "does not support item assignment")
  | _, _ =>
    let d2 := setKey (setKey r.details "original_value" output) "fallback_value" g.fallback_value
    .ok (g.fallback_value, { r with details := d2 })

/-- The two output references `check_output` works with: the caller's
`output` argument and the engine's working copy (`modified_output`,
created by `copy.deepcopy`).  Remediation only ever rebuilds the working
copy, which is what the deep copy in the source guarantees for the
caller's object. -/
structure OutputState where
  callerOutput : Value
  working : Value

/-- Loop body of `GuardrailEngine.check_output`: evaluate each enabled
guardrail against `{"request": ..., "output": working}`; a triggered
`block` aborts the stage, `truncate`/`fallback` rebuild the working copy,
`flag` (or any other response) only records.  The Python code appends the
result object before mutating its `details` in the remediation helpers;
since list and summary hold the same object there, the post-remediation
result is recorded here. -/
def checkOutputGo (request : Value) (failOpen : Bool) :
    List GuardrailConfig → OutputState → List GuardrailResult → GuardrailSummary →
    (Except CheckErr (OutputState × List GuardrailResult)) × GuardrailSummary
  | [], st, acc, summ => (.ok (st, acc), summ)
  | g :: gs, st, acc, summ =>
    if g.enabled = false then checkOutputGo request failOpen gs st acc summ
    else
      match evaluateGuardrail g
          (Value.dict [("request", request), ("output", st.working)]) failOpen with
      | .error e => (.error (.evalError e), summ)
      | .ok r =>
        if r.triggered = true then
          if r.response = some "block" then
            (.error (.blocked
              { guardrail_name := g.name, stage := "output",
                message := orDefault g.error_message ("Blocked by guardrail: " ++ g.name),
                details := r.details }), addResult summ r)
          else if r.response = some "truncate" then
            match applyTruncate st.working g r with
            | .ok p =>
              checkOutputGo request failOpen gs { st with working := p.1 }
                (acc ++ [p.2]) (addResult summ p.2)
            | .error e => (.error (.evalError e), addResult summ r)
          else if r.response = some "fallback" then
            match applyFallback st.working g r with
            | .ok p =>
              checkOutputGo request failOpen gs { st with working := p.1 }
                (acc ++ [p.2]) (addResult summ p.2)
            | .error e => (.error (.evalError e), addResult summ r)
          else
            checkOutputGo request failOpen gs st (acc ++ [r]) (addResult summ r)
        else
          checkOutputGo request failOpen gs st (acc ++ [r]) (addResult summ r)

/-- `GuardrailEngine.check_output(agent, request, output)`: deep-copy the
caller's output into the working reference, then run the output-stage
guardrails. -/
def check_output (config : EngineConfig) (agent : String) (request output : Value)
    (failOpen : Bool) (summ : GuardrailSummary) :
    (Except CheckErr (OutputState × List GuardrailResult)) × GuardrailSummary :=
  checkOutputGo request failOpen (getGuardrails config agent "output")
    { callerOutput := output, working := deepcopy output } [] summ

/-! ### Shared lemmas -/

/-- Folding `record_tool_call` adds the number of calls to the counter. -/
theorem foldl_record_tool_call_count (names : List String) :
    ∀ c : GuardrailContext,
      (names.foldl record_tool_call c).tool_call_count
        = c.tool_call_count + names.length := by
  induction names with
  | nil => intro c; simp
  | cons n ns ih =>
    intro c
    simp only [List.foldl_cons, ih, record_tool_call, List.length_cons]
    omega

/-- Applying a list of context mutations. -/
def applyCtxOps (c : GuardrailContext) (ops : List CtxOp) : GuardrailContext :=
  ops.foldl applyCtxOp c

/-- The count/history agreement is preserved by every context mutation. -/
theorem applyCtxOps_count_inv (ops : List CtxOp) :
    ∀ c : GuardrailContext,
      c.tool_call_count = (c.tool_calls.length : Int) →
      (applyCtxOps c ops).tool_call_count
        = ((applyCtxOps c ops).tool_calls.length : Int) := by
  induction ops with
  | nil => intro c h; simpa [applyCtxOps] using h
  | cons op ops ih =>
    intro c h
    have hstep : (applyCtxOp c op).tool_call_count
        = ((applyCtxOp c op).tool_calls.length : Int) := by
      cases op with
      | recordToolCall n =>
        simp [applyCtxOp, record_tool_call, h]
      | incrementIteration =>
        simp [applyCtxOp, increment_iteration, h]
    simpa [applyCtxOps, List.foldl_cons] using ih (applyCtxOp c op) hstep

/-! ### Claim theorems -/

/-- C10: `GuardrailContext` counters are monotonic and never reset except
by creating a new context: from a fresh context, `k` calls to
`record_tool_call` leave `tool_call_count = k`; `tool_call_count` always
equals the length of the `tool_calls` list along any sequence of the two
mutators; `increment_iteration` adds exactly 1 to `iteration_count`; and
neither mutator ever decreases either counter. -/
theorem guardrail_context_counters_monotonic :
    (∀ (agent : String) (request : Value) (names : List String),
      (names.foldl record_tool_call (create_context agent request)).tool_call_count
        = names.length) ∧
    (∀ (agent : String) (request : Value) (ops : List CtxOp),
      (applyCtxOps (create_context agent request) ops).tool_call_count
        = ((applyCtxOps (create_context agent request) ops).tool_calls.length : Int)) ∧
    (∀ c : GuardrailContext,
      (increment_iteration c).iteration_count = c.iteration_count + 1) ∧
    (∀ (c : GuardrailContext) (op : CtxOp),
      c.tool_call_count ≤ (applyCtxOp c op).tool_call_count ∧
      c.iteration_count ≤ (applyCtxOp c op).iteration_count) := by
  refine ⟨?_, ?_, ?_, ?_⟩
  · intro agent request names
    simp [foldl_record_tool_call_count, create_context]
  · intro agent request ops
    exact applyCtxOps_count_inv ops _ (by simp [create_context])
  · intro c
    simp [increment_iteration]
  · intro c op
    cases op with
    | recordToolCall n =>
      constructor <;> simp [applyCtxOp, record_tool_call]
    | incrementIteration =>
      constructor <;> simp [applyCtxOp, increment_iteration]

/-- Integer comparison through the rational view, `≤` direction. -/
theorem pyLe_int (a b : Int) : pyLe (.int a) (.int b) = .ok (decide (a ≤ b)) := by
  have hcmp : (decide (ratCompare (a : Rat) (b : Rat) ≠ Ordering.gt)) = decide (a ≤ b) := by
    rw [decide_eq_decide]
    unfold ratCompare
    by_cases h1 : (a : Rat) < (b : Rat)
    · simp [h1]
      exact le_of_lt (by exact_mod_cast h1)
    · by_cases h2 : (b : Rat) < (a : Rat)
      · simp [h1, h2]
        exact_mod_cast h2
      · simp [h1, h2]
        exact_mod_cast not_lt.mp h2
  simp only [pyLe, pyCmp, numOf, Except.map]
  rw [hcmp]

/-- Integer comparison through the rational view, `≥` direction. -/
theorem pyGe_int (a b : Int) : pyGe (.int a) (.int b) = .ok (decide (b ≤ a)) := by
  have hcmp : (decide (ratCompare (a : Rat) (b : Rat) ≠ Ordering.lt)) = decide (b ≤ a) := by
    rw [decide_eq_decide]
    unfold ratCompare
    by_cases h1 : (a : Rat) < (b : Rat)
    · simp [h1]
      exact_mod_cast h1
    · by_cases h2 : (b : Rat) < (a : Rat)
      · simp [h1, h2]
        exact le_of_lt (by exact_mod_cast h2)
      · simp [h1, h2]
        exact_mod_cast not_lt.mp h1
  simp only [pyGe, pyCmp, numOf, Except.map]
  rw [hcmp]

/-- C6 counterexample: the claim's length contract fails on the code.
`min_length` measures the *stripped* string, so `"  a  "` (length 5) fails
a minimum of 3; and `max_length` converts non-strings with `str()`, so the
non-string `12345` passes a maximum of 5 where the claim requires `false`
for every non-string. -/
theorem min_length_counterexample :
    min_length [Value.str "  a  ", Value.int 3] = .ok false ∧
    (3 : Int) ≤ ("  a  ".length : Int) ∧
    max_length [Value.int 12345, Value.int 5] = .ok true := by
  refine ⟨?_, by decide, ?_⟩ <;> rfl

/-- C6 (amended): `max_length(v, n)` is true for absent/null `v` regardless
of `n`, and otherwise holds exactly when `str(v)` has length at most `n`
(for a string, its own length); `min_length` is the lower-bound dual with
absent/null failing, measured on `str(v)` stripped of surrounding
whitespace (for a string, its stripped length). -/
theorem max_length_min_length_semantics :
    (∀ limit : Value, max_length [Value.none, limit] = .ok true) ∧
    (∀ (v : Value) (n : Int), v.isNone = false →
      max_length [v, Value.int n] = .ok (decide (((pyStr v).length : Int) ≤ n))) ∧
    (∀ (s : String) (n : Int),
      max_length [Value.str s, Value.int n] = .ok (decide ((s.length : Int) ≤ n))) ∧
    (∀ limit : Value, min_length [Value.none, limit] = .ok false) ∧
    (∀ (v : Value) (n : Int), v.isNone = false →
      min_length [v, Value.int n] = .ok (decide (n ≤ ((pyStrip (pyStr v)).length : Int)))) ∧
    (∀ (s : String) (n : Int),
      min_length [Value.str s, Value.int n] = .ok (decide (n ≤ ((pyStrip s).length : Int)))) := by
  refine ⟨?_, ?_, ?_, ?_, ?_, ?_⟩
  · intro limit; rfl
  · intro v n h
    simp [max_length, h, pyLe_int]
  · intro s n
    simp [max_length, Value.isNone, pyStr, pyLe_int]
  · intro limit; rfl
  · intro v n h
    simp [min_length, h, pyGe_int]
  · intro s n
    simp [min_length, Value.isNone, pyStr, pyGe_int]

/-- C6 witness: the amended per-kind clauses at concrete inputs. -/
theorem max_length_min_length_semantics_witness :
    max_length [Value.int 7, Value.int 1] = .ok true ∧
    min_length [Value.str "  hi  ", Value.int 2] = .ok true := by
  constructor
  · have h := max_length_min_length_semantics.2.1 (Value.int 7) 1 (by rfl)
    simpa using h
  · have h := max_length_min_length_semantics.2.2.2.2.2 "  hi  " 2
    simpa using h

/-- C2 counterexample: the resolver never indexes into sequences.  With
root `{"a": [10, 20]}` and path `"a.0"`, index 0 is in bounds, yet the
resolver yields the absent result rather than the element `10`. -/
theorem get_nested_value_no_list_indexing :
    get_nested_value (Value.dict [("a", Value.list [Value.int 10, Value.int 20])]) "a.0"
      = Value.none ∧
    (0 : Nat) < [Value.int 10, Value.int 20].length ∧
    Value.none ≠ Value.int 10 :=
  ⟨rfl, by decide, fun h => Value.noConfusion h⟩

/-- C2 (amended): the path resolver follows the dot-separated segments and
never raises: a dict segment is a key lookup whose miss continues with
null, an attributed-object segment follows the attribute when present and
is otherwise absent, and every other current value — including an ordered
sequence, even when the segment is a numeric in-bounds index — resolves to
the absent result, because the code has no sequence-indexing branch. -/
theorem path_resolver_semantics :
    (∀ (obj : Value) (path : String),
      get_nested_value obj path = nestedGo obj (pySplitDot path)) ∧
    (∀ cur : Value, nestedGo cur [] = cur) ∧
    (∀ (es : List (String × Value)) (p : String) (ps : List String),
      nestedGo (Value.dict es) (p :: ps)
        = nestedGo ((lookupKey es p).getD Value.none) ps) ∧
    (∀ (attrs : List (String × Value)) (p : String) (ps : List String) (v : Value),
      (lookupKey attrs p = some v →
        nestedGo (Value.obj attrs) (p :: ps) = nestedGo v ps) ∧
      (lookupKey attrs p = Option.none →
        nestedGo (Value.obj attrs) (p :: ps) = Value.none)) ∧
    (∀ (xs : List Value) (p : String) (ps : List String),
      nestedGo (Value.list xs) (p :: ps) = Value.none) ∧
    (∀ (p : String) (ps : List String) (b : Bool) (n : Int) (q : Rat) (s : String),
      nestedGo Value.none (p :: ps) = Value.none ∧
      nestedGo (Value.bool b) (p :: ps) = Value.none ∧
      nestedGo (Value.int n) (p :: ps) = Value.none ∧
      nestedGo (Value.float q) (p :: ps) = Value.none ∧
      nestedGo (Value.str s) (p :: ps) = Value.none) := by
  refine ⟨fun obj path => rfl, fun cur => rfl, fun es p ps => rfl, ?_, ?_, ?_⟩
  · intro attrs p ps v
    constructor
    · intro h
      simp [nestedGo, h]
    · intro h
      simp [nestedGo, h]
  · intro xs p ps; rfl
  · intro p ps b n q s
    exact ⟨rfl, rfl, rfl, rfl, rfl⟩

/-- C2 witness: the attribute clauses of the amended resolver contract at
concrete inputs. -/
theorem path_resolver_semantics_witness :
    nestedGo (Value.obj [("agent", Value.str "a")]) ["agent"] = nestedGo (Value.str "a") [] ∧
    nestedGo (Value.obj [("agent", Value.str "a")]) ["missing"] = Value.none := by
  constructor
  · exact (path_resolver_semantics.2.2.2.1 [("agent", Value.str "a")] "agent" [] (Value.str "a")).1 rfl
  · exact (path_resolver_semantics.2.2.2.1 [("agent", Value.str "a")] "missing" [] Value.none).2 rfl

def c1Out : Value := Value.dict [("a", Value.int 1)]

def c1Guard : GuardrailConfig :=
  { name := "fb", stage := "output", threat := "quality", rule := "required(request.x)", response := "fallback", fallback_value := Value.str "FB" }

def c1Result : GuardrailResult :=
  { name := "fb", stage := "output", threat := "quality", triggered := true, response := some "fallback" }

/-- C1 counterexample: for a triggered fallback guardrail whose rule text
has no `output.`-prefixed field path, the remediation is not inert on a
non-string output root — it replaces the entire (dict) root with the
configured fallback value. -/
theorem applyFallback_whole_output_counterexample :
    extract_field_from_rule "required(request.x)" "output." = Option.none ∧
    applyFallback c1Out c1Guard c1Result
      = .ok (Value.str "FB", { c1Result with details := [("original_value", c1Out), ("fallback_value", Value.str "FB")] }) ∧
    Value.str "FB" ≠ c1Out :=
  ⟨rfl, rfl, fun h => Value.noConfusion h⟩

/-- C1 (amended): when no `output.`-prefixed field path can be extracted
from the rule text, `truncate` applies to the output root only when it is
a string (slice to `truncate_to` plus the configured suffix) and is
silently inert on any non-string root, while `fallback` always replaces
the output root with `fallback_value`, whatever the root's type. -/
theorem truncate_fallback_no_field_path_semantics :
    ∀ (g : GuardrailConfig) (r : GuardrailResult) (out : Value),
      extract_field_from_rule g.rule "output." = Option.none →
      ((∀ (s : String) (n : Int), out = Value.str s → g.truncate_to = some n →
        applyTruncate out g r
          = .ok (Value.str (pySliceTo s n ++ g.suffix),
              { r with details := setKey (setKey r.details "original_length" (Value.int s.length)) "truncated_to" (Value.int n) })) ∧
       ((∀ s : String, out ≠ Value.str s) →
        applyTruncate out g r = .ok (out, r)) ∧
       (applyFallback out g r
         = .ok (g.fallback_value,
             { r with details := setKey (setKey r.details "original_value" out) "fallback_value" g.fallback_value }))) := by
  intro g r out hnone
  refine ⟨?_, ?_, ?_⟩
  · intro s n hout htr
    subst hout
    simp [applyTruncate, htr, hnone]
  · intro hne
    cases htr : g.truncate_to with
    | none => simp [applyTruncate, htr]
    | some n =>
      cases out with
      | str s => exact absurd rfl (hne s)
      | none => simp [applyTruncate, htr, hnone]
      | bool b => simp [applyTruncate, htr, hnone]
      | int m => simp [applyTruncate, htr, hnone]
      | float q => simp [applyTruncate, htr, hnone]
      | list xs => simp [applyTruncate, htr, hnone]
      | dict es => simp [applyTruncate, htr, hnone]
      | obj es => simp [applyTruncate, htr, hnone]
  · cases out <;> simp [applyFallback, hnone]

def c1TrGuard : GuardrailConfig :=
  { name := "tr", stage := "output", threat := "quality", rule := "required(request.x)", response := "truncate", truncate_to := some 3 }

def c1TrResult : GuardrailResult :=
  { name := "tr", stage := "output", threat := "quality", triggered := true, response := some "truncate" }

/-- C1 witness: the amended root-remediation clauses at concrete inputs. -/
theorem truncate_fallback_no_field_path_semantics_witness :
    applyTruncate (Value.str "hello") c1TrGuard c1TrResult
      = .ok (Value.str "hel...", { c1TrResult with details := [("original_length", Value.int 5), ("truncated_to", Value.int 3)] }) ∧
    applyTruncate (Value.int 7) c1TrGuard c1TrResult = .ok (Value.int 7, c1TrResult) ∧
    applyFallback (Value.list []) c1TrGuard c1TrResult
      = .ok (Value.none, { c1TrResult with details := [("original_value", Value.list []), ("fallback_value", Value.none)] }) := by
  refine ⟨?_, ?_, ?_⟩
  · exact (truncate_fallback_no_field_path_semantics c1TrGuard c1TrResult (Value.str "hello") rfl).1 "hello" 3 rfl rfl
  · exact (truncate_fallback_no_field_path_semantics c1TrGuard c1TrResult (Value.int 7) rfl).2.1
      (fun s hs => Value.noConfusion hs)
  · exact (truncate_fallback_no_field_path_semantics c1TrGuard c1TrResult (Value.list []) rfl).2.2

/-- C7: in comparison rules, `==`/`!=` compare the resolved values directly
(absent/null included, never raising); every ordering operator evaluates to
`false` whenever either side resolves to absent/null; `in` is `false` and
`not in` is `true` when the right side resolves to absent/null; and for
every operand pair `not in` is the exact logical negation of `in`
(including raising the same error when membership is unsupported). -/
theorem comparison_operator_semantics :
    ∀ (ctx : Value) (l r : String),
      (evaluateComparison l "==" r ctx
        = .ok (pyEq (resolveValue (parse_literal l) ctx) (resolveValue (parse_literal r) ctx))) ∧
      (evaluateComparison l "!=" r ctx
        = .ok (!pyEq (resolveValue (parse_literal l) ctx) (resolveValue (parse_literal r) ctx))) ∧
      (∀ op : String, (op = ">" ∨ op = "<" ∨ op = ">=" ∨ op = "<=") →
        ((resolveValue (parse_literal l) ctx).isNone = true ∨
          (resolveValue (parse_literal r) ctx).isNone = true) →
        evaluateComparison l op r ctx = .ok false) ∧
      ((resolveValue (parse_literal r) ctx).isNone = true →
        evaluateComparison l "in" r ctx = .ok false ∧
        evaluateComparison l "not_in" r ctx = .ok true) ∧
      (evaluateComparison l "not_in" r ctx
        = (evaluateComparison l "in" r ctx).map (fun b => !b)) := by
  intro ctx l r
  refine ⟨rfl, rfl, ?_, ?_, ?_⟩
  · intro op hop hnone
    have hb : ((resolveValue (parse_literal l) ctx).isNone
        || (resolveValue (parse_literal r) ctx).isNone) = true := by
      rcases hnone with h | h <;> simp [h]
    rcases hop with h | h | h | h <;> subst h <;> simp [evaluateComparison, hb]
  · intro hnone
    constructor <;> simp [evaluateComparison, hnone]
  · by_cases hnone : (resolveValue (parse_literal r) ctx).isNone = true
    · simp [evaluateComparison, hnone, Except.map]
    · simp only [Bool.not_eq_true] at hnone
      simp only [evaluateComparison, hnone]
      cases pyIn (resolveValue (parse_literal l) ctx) (resolveValue (parse_literal r) ctx) with
      | ok b => simp
      | error e => simp

/-- C7 witness: the hypothesis-bearing clauses at concrete operands. -/
theorem comparison_operator_semantics_witness :
    evaluateComparison "1" ">" "none" (Value.dict []) = .ok false ∧
    evaluateComparison "1" "in" "none" (Value.dict []) = .ok false ∧
    evaluateComparison "1" "not_in" "none" (Value.dict []) = .ok true := by
  have h := comparison_operator_semantics (Value.dict []) "1" "none"
  exact ⟨h.2.2.1 ">" (Or.inl rfl) (Or.inr rfl),
         (h.2.2.2.1 rfl).1, (h.2.2.2.1 rfl).2⟩

/-- C8: a rule in function-call form whose name is not in the registry
evaluates to a parse error identifying the unknown function; the
classification is independent of fail-open, which only suppresses
propagation — fail-closed re-raises the parse error, fail-open converts it
into a non-triggering result whose message records it. -/
theorem unknown_function_parse_error :
    ∀ (ruleS : String) (ctx : Value) (nm args : String) (g : GuardrailConfig),
      matchFuncCall (pyStrip ruleS) = some (nm, args) →
      getRule nm = Option.none →
      g.rule = ruleS →
      (evaluate_rule ruleS ctx = .error (.parseError ("Unknown rule function: " ++ nm))) ∧
      (evaluateGuardrail g ctx false
        = .error (.parseError ("Unknown rule function: " ++ nm))) ∧
      (evaluateGuardrail g ctx true
        = .ok { name := g.name, stage := g.stage, threat := g.threat, triggered := false,
                message := some ("Rule parse error: " ++ ("Unknown rule function: " ++ nm)) }) := by
  intro ruleS ctx nm args g hmatch hreg hrule
  have heval : evaluate_rule ruleS ctx
      = .error (.parseError ("Unknown rule function: " ++ nm)) := by
    simp [evaluate_rule, hmatch, evaluateFunction, hreg]
  refine ⟨heval, ?_, ?_⟩
  · simp [evaluateGuardrail, hrule, heval]
  · simp [evaluateGuardrail, hrule, heval, errText]

def c8Guard : GuardrailConfig :=
  { name := "g", stage := "input", threat := "cost", rule := "bogus(x)", response := "flag" }

/-- C8 witness: the unknown-function behavior at a concrete rule. -/
theorem unknown_function_parse_error_witness :
    evaluate_rule "bogus(x)" (Value.dict []) = .error (.parseError ("Unknown rule function: " ++ "bogus")) ∧
    evaluateGuardrail c8Guard (Value.dict []) false = .error (.parseError ("Unknown rule function: " ++ "bogus")) ∧
    evaluateGuardrail c8Guard (Value.dict []) true
      = .ok { name := "g", stage := "input", threat := "cost", triggered := false,
              message := some ("Rule parse error: " ++ ("Unknown rule function: " ++ "bogus")) } := by
  exact unknown_function_parse_error "bogus(x)" (Value.dict []) "bogus" "x" c8Guard rfl rfl rfl

/-- C5: when the input-stage list for an agent holds two enabled
guardrails and the first triggers with response `block`, `check_input`
aborts with a block error naming the first guardrail; the outcome —
including the recorded results, which gain exactly the first guardrail's
result — is the same whatever the second guardrail is, so the second is
never evaluated and no result for it is recorded. -/
theorem input_block_short_circuits :
    ∀ (config : EngineConfig) (agent : String) (request : Value) (failOpen : Bool)
      (s0 : GuardrailSummary) (g1 g2 : GuardrailConfig),
      getGuardrails config agent "input" = [g1, g2] →
      g1.enabled = true → g2.enabled = true →
      g1.response = "block" →
      evaluate_rule g1.rule (Value.dict [("request", request)]) = .ok false →
      check_input config agent request failOpen s0
        = (.error (.blocked
            { guardrail_name := g1.name, stage := "input",
              message := orDefault g1.error_message ("Blocked by guardrail: " ++ g1.name),
              details := [] }),
           addResult s0
             { name := g1.name, stage := g1.stage, threat := g1.threat, triggered := true,
               response := some "block", message := g1.error_message }) := by
  intro config agent request failOpen s0 g1 g2 hlist hen1 _hen2 hresp heval
  rw [check_input, hlist]
  rw [checkInputGo]
  simp [hen1, evaluateGuardrail, heval, hresp]

def c5G1 : GuardrailConfig :=
  { name := "b1", stage := "input", threat := "security", rule := "max_length(request.body, 0)", response := "block" }

def c5G2 : GuardrailConfig :=
  { name := "b2", stage := "input", threat := "security", rule := "required(request.body)", response := "flag" }

def c5Config : EngineConfig := [("default", [("input", [c5G1, c5G2])])]

def c5Req : Value := Value.dict [("body", Value.str "x")]

/-- C5 witness: the short-circuit at a concrete two-guardrail input stage. -/
theorem input_block_short_circuits_witness :
    check_input c5Config "agent" c5Req false {}
      = (.error (.blocked
          { guardrail_name := "b1", stage := "input",
            message := "Blocked by guardrail: b1", details := [] }),
         addResult {}
           { name := "b1", stage := "input", threat := "security", triggered := true,
             response := some "block", message := Option.none }) := by
  exact input_block_short_circuits c5Config "agent" c5Req false {} c5G1 c5G2 rfl rfl rfl rfl rfl

def c4BadGuard : GuardrailConfig :=
  { name := "bad", stage := "input", threat := "cost", rule := "no_such_rule(x)", response := "flag" }

def c4GoodGuard : GuardrailConfig :=
  { name := "ok", stage := "input", threat := "cost", rule := "required(request.body)", response := "flag" }

def c4Config : EngineConfig := [("default", [("input", [c4BadGuard, c4GoodGuard])])]

/-- C4 counterexample: with fail-open off (the engine's default), a parse
error in the first guardrail propagates out of `check_input`: the stage
aborts, the second (well-formed) guardrail is never evaluated, and no
result at all is recorded — one malformed rule did prevent evaluation of
the remaining guardrails. -/
theorem parse_error_aborts_stage_counterexample :
    check_input c4Config "agent" (Value.dict [("body", Value.str "x")]) false {}
      = (.error (.evalError (.parseError "Unknown rule function: no_such_rule")), {}) ∧
    ({} : GuardrailSummary).input = [] :=
  ⟨rfl, rfl⟩

/-- C4 (amended): a parse or evaluation error raised while evaluating a
single guardrail is caught at that guardrail; when the engine is
configured fail-open the error degrades to a non-triggering result whose
message records the error text and the remaining guardrails in the stage
are still evaluated, while with fail-open off the error propagates and
aborts the stage (the remaining guardrails are not evaluated and the
summary is left as it was). -/
theorem per_guardrail_error_handling :
    ∀ (g : GuardrailConfig) (gs : List GuardrailConfig) (request : Value)
      (acc : List GuardrailResult) (s : GuardrailSummary) (e : EvalErr),
      g.enabled = true →
      evaluate_rule g.rule (Value.dict [("request", request)]) = .error e →
      (checkInputGo request false (g :: gs) acc s = (.error (.evalError e), s)) ∧
      (checkInputGo request true (g :: gs) acc s
        = checkInputGo request true gs
            (acc ++ [{ name := g.name, stage := g.stage, threat := g.threat,
                       triggered := false, message := some (errText e) }])
            (addResult s
              { name := g.name, stage := g.stage, threat := g.threat,
                triggered := false, message := some (errText e) })) := by
  intro g gs request acc s e hen heval
  constructor
  · rw [checkInputGo]
    simp [hen, evaluateGuardrail, heval]
  · rw [checkInputGo]
    simp [hen, evaluateGuardrail, heval]

/-- C4 witness: the amended error-handling contract at a concrete
malformed guardrail. -/
theorem per_guardrail_error_handling_witness :
    (checkInputGo (Value.dict []) false [c4BadGuard] [] {}
      = (.error (.evalError (.parseError "Unknown rule function: no_such_rule")), {})) ∧
    (checkInputGo (Value.dict []) true [c4BadGuard] [] {}
      = checkInputGo (Value.dict []) true []
          [{ name := "bad", stage := "input", threat := "cost", triggered := false,
             message := some (errText (.parseError "Unknown rule function: no_such_rule")) }]
          (addResult {}
            { name := "bad", stage := "input", threat := "cost", triggered := false,
              message := some (errText (.parseError "Unknown rule function: no_such_rule")) })) := by
  have h := per_guardrail_error_handling c4BadGuard [] (Value.dict []) [] {}
    (.parseError "Unknown rule function: no_such_rule") rfl rfl
  exact ⟨h.1, h.2⟩

/-- Shape of a successfully produced guardrail result: either it did not
trigger, or its rule evaluated to a failing `false` and its response is the
configured one. -/
theorem evaluateGuardrail_ok_shape (g : GuardrailConfig) (ctx : Value)
    (failOpen : Bool) (r : GuardrailResult)
    (h : evaluateGuardrail g ctx failOpen = .ok r) :
    r.triggered = false ∨
      (evaluate_rule g.rule ctx = .ok false ∧ r.triggered = true ∧
        r.response = some g.response) := by
  unfold evaluateGuardrail at h
  cases heval : evaluate_rule g.rule ctx with
  | ok passed =>
    rw [heval] at h
    cases passed with
    | true =>
      left
      simp at h
      rw [← h]
    | false =>
      right
      simp at h
      exact ⟨rfl, by rw [← h], by rw [← h]⟩
  | error e =>
    rw [heval] at h
    cases failOpen with
    | true =>
      left
      simp at h
      rw [← h]
    | false => simp at h

/-- Along a run of the output stage in which no enabled non-block
guardrail's rule evaluates to `false` (against the working output, which
such a run never changes), the returned state is exactly the starting
state. -/
theorem checkOutputGo_no_trigger_preserves :
    ∀ (gs : List GuardrailConfig) (request : Value) (failOpen : Bool)
      (st : OutputState) (acc : List GuardrailResult) (summ : GuardrailSummary)
      (st' : OutputState) (res : List GuardrailResult) (summ' : GuardrailSummary),
      (∀ g ∈ gs, g.enabled = true → g.response ≠ "block" →
        evaluate_rule g.rule (Value.dict [("request", request), ("output", st.working)])
          ≠ .ok false) →
      checkOutputGo request failOpen gs st acc summ = (.ok (st', res), summ') →
      st' = st := by
  intro gs
  induction gs with
  | nil =>
    intro request failOpen st acc summ st' res summ' _h heq
    rw [checkOutputGo] at heq
    injection heq with h1 h2
    injection h1 with h1
    injection h1 with h1a h1b
    exact h1a.symm
  | cons g gs ih =>
    intro request failOpen st acc summ st' res summ' h heq
    rw [checkOutputGo] at heq
    by_cases hen : g.enabled = false
    · rw [if_pos hen] at heq
      exact ih request failOpen st acc summ st' res summ'
        (fun g' hg' => h g' (List.mem_cons_of_mem _ hg')) heq
    · rw [if_neg hen] at heq
      have hen' : g.enabled = true := by
        cases hge : g.enabled
        · exact absurd hge hen
        · rfl
      cases hev : evaluateGuardrail g
          (Value.dict [("request", request), ("output", st.working)]) failOpen with
      | error e =>
        rw [hev] at heq
        simp at heq
      | ok r =>
        rw [hev] at heq
        dsimp only at heq
        have hnt : r.triggered = false := by
          rcases evaluateGuardrail_ok_shape g _ failOpen r hev with hcase | ⟨hf, _ht, _hr⟩
          · exact hcase
          · by_cases hresp : g.response = "block"
            · cases htr : r.triggered
              · rfl
              · exfalso
                rw [htr] at heq
                have hrb : r.response = some "block" := by rw [_hr, hresp]
                simp [hrb] at heq
            · exact absurd hf (h g (List.mem_cons_self _ _) hen' hresp)
        rw [hnt] at heq
        simp only [Bool.false_eq_true, if_false] at heq
        exact ih request failOpen st (acc ++ [r]) (addResult summ r) st' res summ'
          (fun g' hg' => h g' (List.mem_cons_of_mem _ hg')) heq

/-- C3: `check_output` evaluates and remediates against a deep independent
copy — the caller's output reference in the state is never changed — and
when every enabled output-stage guardrail with response ≠ block does not
trigger, the output it returns is (deep-)equal to the input output
(equality of `Value` trees is deep equality). -/
theorem check_output_no_mutation_and_identity :
    ∀ (config : EngineConfig) (agent : String) (request output : Value)
      (failOpen : Bool) (summ : GuardrailSummary)
      (st' : OutputState) (res : List GuardrailResult) (summ' : GuardrailSummary),
      (∀ g ∈ getGuardrails config agent "output", g.enabled = true → g.response ≠ "block" →
        evaluate_rule g.rule (Value.dict [("request", request), ("output", output)])
          ≠ .ok false) →
      check_output config agent request output failOpen summ = (.ok (st', res), summ') →
      st'.callerOutput = output ∧ st'.working = output := by
  intro config agent request output failOpen summ st' res summ' h heq
  rw [check_output] at heq
  rw [deepcopy_eq output] at heq
  have := checkOutputGo_no_trigger_preserves (getGuardrails config agent "output")
    request failOpen { callerOutput := output, working := output } [] summ st' res summ'
    h heq
  rw [this]
  exact ⟨rfl, rfl⟩

def c3Guard : GuardrailConfig :=
  { name := "g1", stage := "output", threat := "quality", rule := "required(output)", response := "flag" }

def c3Config : EngineConfig := [("default", [("output", [c3Guard])])]

def c3Req : Value := Value.dict [("q", Value.str "r")]

def c3R0 : GuardrailResult :=
  { name := "g1", stage := "output", threat := "quality", triggered := false }

/-- C3 witness: one enabled non-block output guardrail that passes; the
returned state keeps the caller's output and returns it unchanged. -/
theorem check_output_no_mutation_and_identity_witness :
    ({ callerOutput := Value.str "hello", working := Value.str "hello" } : OutputState).callerOutput
        = Value.str "hello" ∧
    ({ callerOutput := Value.str "hello", working := Value.str "hello" } : OutputState).working
        = Value.str "hello" := by
  apply check_output_no_mutation_and_identity c3Config "agent" c3Req (Value.str "hello")
    false {} _ [c3R0] (addResult {} c3R0)
  · intro g hg h1 h2
    simp only [c3Config, getGuardrails, assocLookup, if_pos] at hg
    simp at hg
    subst hg
    intro hcontra
    have hval : evaluate_rule c3Guard.rule
        (Value.dict [("request", c3Req), ("output", Value.str "hello")]) = .ok true := rfl
    rw [hval] at hcontra
    simp at hcontra
  · rfl


/-- Character-level branch analysis of `_parse_literal` (see
`parse_literal_classification` for the string-level statement). -/
theorem parseLitChars_classification (cs : List Char) :
    (isNoneTok (stripChars cs) = true →
      parseLitChars (cs.length + 1) cs = Value.none) ∧
    (isNoneTok (stripChars cs) = false → isTrueTok (stripChars cs) = true →
      parseLitChars (cs.length + 1) cs = Value.bool true) ∧
    (isNoneTok (stripChars cs) = false → isTrueTok (stripChars cs) = false →
      isFalseTok (stripChars cs) = true →
      parseLitChars (cs.length + 1) cs = Value.bool false) ∧
    (∀ v : Value,
      isNoneTok (stripChars cs) = false → isTrueTok (stripChars cs) = false →
      isFalseTok (stripChars cs) = false →
      numAttempt (stripChars cs) = some v →
      parseLitChars (cs.length + 1) cs = v) ∧
    (∀ n : Int, parseLitChars (cs.length + 1) cs = Value.int n →
      (stripChars cs).contains '.' = false ∧ parsePyInt (stripChars cs) = some n) ∧
    (∀ q : Rat, parseLitChars (cs.length + 1) cs = Value.float q →
      (stripChars cs).contains '.' = true ∧ parsePyFloat (stripChars cs) = some q) ∧
    (isNoneTok (stripChars cs) = false → isTrueTok (stripChars cs) = false →
      isFalseTok (stripChars cs) = false →
      numAttempt (stripChars cs) = Option.none →
      isQuotedTok (stripChars cs) = true →
      parseLitChars (cs.length + 1) cs
        = Value.str (String.mk ((stripChars cs).tail.dropLast))) ∧
    (isNoneTok (stripChars cs) = false → isTrueTok (stripChars cs) = false →
      isFalseTok (stripChars cs) = false →
      numAttempt (stripChars cs) = Option.none →
      isQuotedTok (stripChars cs) = false →
      isBracketTok (stripChars cs) = true →
      stripChars ((stripChars cs).tail.dropLast) = [] →
      parseLitChars (cs.length + 1) cs = Value.list []) ∧
    (isNoneTok (stripChars cs) = false → isTrueTok (stripChars cs) = false →
      isFalseTok (stripChars cs) = false →
      numAttempt (stripChars cs) = Option.none →
      isQuotedTok (stripChars cs) = false →
      isBracketTok (stripChars cs) = true →
      stripChars ((stripChars cs).tail.dropLast) ≠ [] →
      parseLitChars (cs.length + 1) cs
        = Value.list
            ((splitChar ',' (stripChars ((stripChars cs).tail.dropLast))).map
              (fun p => parseLitChars ((stripChars p).length + 1) (stripChars p)))) ∧
    (isNoneTok (stripChars cs) = false → isTrueTok (stripChars cs) = false →
      isFalseTok (stripChars cs) = false →
      numAttempt (stripChars cs) = Option.none →
      isQuotedTok (stripChars cs) = false →
      isBracketTok (stripChars cs) = false →
      parseLitChars (cs.length + 1) cs
        = Value.dict [("__path__", Value.str (String.mk (stripChars cs)))]) := by
  refine ⟨?_, ?_, ?_, ?_, ?_, ?_, ?_, ?_, ?_, ?_⟩
  · intro h1
    simp [parseLitChars, h1]
  · intro h1 h2
    simp [parseLitChars, h1, h2]
  · intro h1 h2 h3
    simp [parseLitChars, h1, h2, h3]
  · intro v h1 h2 h3 hnum
    simp [parseLitChars, h1, h2, h3, hnum]
  · intro n h
    by_cases h1 : isNoneTok (stripChars cs) = true
    · simp [parseLitChars, h1] at h
    by_cases h2 : isTrueTok (stripChars cs) = true
    · simp [parseLitChars, h1, h2] at h
    by_cases h3 : isFalseTok (stripChars cs) = true
    · simp [parseLitChars, h1, h2, h3] at h
    cases hnum : numAttempt (stripChars cs) with
    | some v =>
      simp [parseLitChars, h1, h2, h3, hnum] at h
      subst h
      unfold numAttempt at hnum
      by_cases hdot : (stripChars cs).contains '.' = true
      · rw [if_pos hdot] at hnum
        exfalso
        cases hq : parsePyFloat (stripChars cs) with
        | some q => rw [hq] at hnum; simp at hnum
        | none => rw [hq] at hnum; simp at hnum
      · simp only [Bool.not_eq_true] at hdot
        rw [hdot] at hnum
        simp only [Bool.false_eq_true, if_false] at hnum
        cases hm : parsePyInt (stripChars cs) with
        | some m =>
          rw [hm] at hnum
          simp at hnum
          subst hnum
          exact ⟨hdot, rfl⟩
        | none => rw [hm] at hnum; simp at hnum
    | none =>
      by_cases h5 : isQuotedTok (stripChars cs) = true
      · simp [parseLitChars, h1, h2, h3, hnum, h5] at h
      by_cases h6 : isBracketTok (stripChars cs) = true
      · by_cases h7 : stripChars ((stripChars cs).tail.dropLast) = []
        · simp [parseLitChars, h1, h2, h3, hnum, h5, h6, h7] at h
        · simp [parseLitChars, h1, h2, h3, hnum, h5, h6, h7] at h
      · simp [parseLitChars, h1, h2, h3, hnum, h5, h6] at h
  · intro q h
    by_cases h1 : isNoneTok (stripChars cs) = true
    · simp [parseLitChars, h1] at h
    by_cases h2 : isTrueTok (stripChars cs) = true
    · simp [parseLitChars, h1, h2] at h
    by_cases h3 : isFalseTok (stripChars cs) = true
    · simp [parseLitChars, h1, h2, h3] at h
    cases hnum : numAttempt (stripChars cs) with
    | some v =>
      simp [parseLitChars, h1, h2, h3, hnum] at h
      subst h
      unfold numAttempt at hnum
      by_cases hdot : (stripChars cs).contains '.' = true
      · rw [if_pos hdot] at hnum
        cases hq : parsePyFloat (stripChars cs) with
        | some q2 =>
          rw [hq] at hnum
          simp at hnum
          subst hnum
          exact ⟨hdot, rfl⟩
        | none => rw [hq] at hnum; simp at hnum
      · exfalso
        simp only [Bool.not_eq_true] at hdot
        rw [hdot] at hnum
        simp only [Bool.false_eq_true, if_false] at hnum
        cases hm : parsePyInt (stripChars cs) with
        | some m => rw [hm] at hnum; simp at hnum
        | none => rw [hm] at hnum; simp at hnum
    | none =>
      by_cases h5 : isQuotedTok (stripChars cs) = true
      · simp [parseLitChars, h1, h2, h3, hnum, h5] at h
      by_cases h6 : isBracketTok (stripChars cs) = true
      · by_cases h7 : stripChars ((stripChars cs).tail.dropLast) = []
        · simp [parseLitChars, h1, h2, h3, hnum, h5, h6, h7] at h
        · simp [parseLitChars, h1, h2, h3, hnum, h5, h6, h7] at h
      · simp [parseLitChars, h1, h2, h3, hnum, h5, h6] at h
  · intro h1 h2 h3 hnum h5
    simp [parseLitChars, h1, h2, h3, hnum, h5]
  · intro h1 h2 h3 hnum h5 h6 h7
    simp [parseLitChars, h1, h2, h3, hnum, h5, h6, h7]
  · intro h1 h2 h3 hnum h5 h6 h7
    conv_lhs => rw [parseLitChars]
    conv_lhs => simp [h1, h2, h3, hnum, h5, h6, h7]
    apply congrArg
    apply List.map_congr_left
    intro p hp
    have h2len : 2 ≤ (stripChars cs).length := isBracketTok_two_le h6
    have hsc : (stripChars cs).length ≤ cs.length := length_stripChars_le _
    have hp1 : p.length ≤ (stripChars ((stripChars cs).tail.dropLast)).length :=
      length_mem_splitChar hp
    have hp2 : (stripChars ((stripChars cs).tail.dropLast)).length ≤
        ((stripChars cs).tail.dropLast).length := length_stripChars_le _
    have hp3 : ((stripChars cs).tail.dropLast).length
        = (stripChars cs).length - 1 - 1 := by
      simp [List.length_dropLast, List.length_tail]
    have hsp : (stripChars p).length ≤ p.length := length_stripChars_le p
    apply parseLitChars_fuel_irrelevant
    · omega
    · omega
  · intro h1 h2 h3 hnum h5 h6
    simp [parseLitChars, h1, h2, h3, hnum, h5, h6]

/-- C9: `_parse_literal` classifies every trimmed token in priority order —
`none`/`null` (case-insensitive) to the absent sentinel; `true`/`false`
(case-insensitive) to a boolean; then the number attempt, which tries
`float` exactly when the token contains a decimal point and `int`
otherwise (so an `int` result implies a dot-free token and a `float`
result a dotted one); then a token wrapped in matching single or double
quotes to the inner string with the quotes stripped and no escape
processing (the number attempt has already failed, which is why a quoted
numeric-looking token such as `'123'` stays a string); then a bracketed
token to a flat list of recursively parsed comma-split items; and any
other token to a `__path__` marker carrying the (trimmed) raw token. -/
theorem parse_literal_classification :
    ∀ token : String,
      (isNoneTok (stripChars token.toList) = true → parse_literal token = Value.none) ∧
      (isNoneTok (stripChars token.toList) = false →
        isTrueTok (stripChars token.toList) = true →
        parse_literal token = Value.bool true) ∧
      (isNoneTok (stripChars token.toList) = false →
        isTrueTok (stripChars token.toList) = false →
        isFalseTok (stripChars token.toList) = true →
        parse_literal token = Value.bool false) ∧
      (∀ v : Value,
        isNoneTok (stripChars token.toList) = false →
        isTrueTok (stripChars token.toList) = false →
        isFalseTok (stripChars token.toList) = false →
        numAttempt (stripChars token.toList) = some v →
        parse_literal token = v) ∧
      (∀ n : Int, parse_literal token = Value.int n →
        (stripChars token.toList).contains '.' = false ∧
        parsePyInt (stripChars token.toList) = some n) ∧
      (∀ q : Rat, parse_literal token = Value.float q →
        (stripChars token.toList).contains '.' = true ∧
        parsePyFloat (stripChars token.toList) = some q) ∧
      (isNoneTok (stripChars token.toList) = false →
        isTrueTok (stripChars token.toList) = false →
        isFalseTok (stripChars token.toList) = false →
        numAttempt (stripChars token.toList) = Option.none →
        isQuotedTok (stripChars token.toList) = true →
        parse_literal token
          = Value.str (String.mk ((stripChars token.toList).tail.dropLast))) ∧
      (isNoneTok (stripChars token.toList) = false →
        isTrueTok (stripChars token.toList) = false →
        isFalseTok (stripChars token.toList) = false →
        numAttempt (stripChars token.toList) = Option.none →
        isQuotedTok (stripChars token.toList) = false →
        isBracketTok (stripChars token.toList) = true →
        stripChars ((stripChars token.toList).tail.dropLast) = [] →
        parse_literal token = Value.list []) ∧
      (isNoneTok (stripChars token.toList) = false →
        isTrueTok (stripChars token.toList) = false →
        isFalseTok (stripChars token.toList) = false →
        numAttempt (stripChars token.toList) = Option.none →
        isQuotedTok (stripChars token.toList) = false →
        isBracketTok (stripChars token.toList) = true →
        stripChars ((stripChars token.toList).tail.dropLast) ≠ [] →
        parse_literal token
          = Value.list
              ((splitChar ',' (stripChars ((stripChars token.toList).tail.dropLast))).map
                (fun p => parse_literal (String.mk (stripChars p))))) ∧
      (isNoneTok (stripChars token.toList) = false →
        isTrueTok (stripChars token.toList) = false →
        isFalseTok (stripChars token.toList) = false →
        numAttempt (stripChars token.toList) = Option.none →
        isQuotedTok (stripChars token.toList) = false →
        isBracketTok (stripChars token.toList) = false →
        parse_literal token
          = Value.dict [("__path__", Value.str (String.mk (stripChars token.toList)))]) := by
  intro token
  exact parseLitChars_classification token.toList

/-- C9 witness: the classification at concrete tokens, one per branch —
in particular the quoted numeric token `'123'` parses to the string
`"123"`, never a number. -/
theorem parse_literal_classification_witness :
    parse_literal "None" = Value.none ∧
    parse_literal "TRUE" = Value.bool true ∧
    parse_literal "false" = Value.bool false ∧
    parse_literal "123" = Value.int 123 ∧
    parse_literal "'123'" = Value.str "123" ∧
    parse_literal "[1, 'a']" = Value.list [Value.int 1, Value.str "a"] ∧
    parse_literal "request.body" = Value.dict [("__path__", Value.str "request.body")] := by
  refine ⟨?_, ?_, ?_, ?_, ?_, ?_, ?_⟩
  · exact (parse_literal_classification "None").1 (by decide)
  · exact (parse_literal_classification "TRUE").2.1 (by decide) (by decide)
  · exact (parse_literal_classification "false").2.2.1 (by decide) (by decide) (by decide)
  · exact (parse_literal_classification "123").2.2.2.1 (Value.int 123)
      (by decide) (by decide) (by decide) (by rfl)
  · exact (parse_literal_classification "'123'").2.2.2.2.2.2.1
      (by decide) (by decide) (by decide) (by rfl) (by decide)
  · have h := (parse_literal_classification "[1, 'a']").2.2.2.2.2.2.2.2.1
      (by decide) (by decide) (by decide) (by rfl) (by decide) (by decide) (by decide)
    rw [h]
    rfl
  · exact (parse_literal_classification "request.body").2.2.2.2.2.2.2.2.2
      (by decide) (by decide) (by decide) (by rfl) (by decide) (by decide)
